import Mathlib

/-!
# GradProbe: a point probe accumulating field values and gradients

A shallow embedding of `src/addictif/common/fenicstools/cpp/GradProbe.cpp` and
`GradProbe.h`.

* `std::vector<T>` is a `List T`; `std::vector<std::vector<double>>` a list of lists.
  A list has any length: no allocation fails and `max_size()` is not modelled.  The
  numbers of rows `_value_size_loc * _geom_dim` and `_value_size_loc * space_dimension`
  are products of natural numbers, which are the code's `std::size_t` products as long
  as these are below `2 ^ 64`.
* The scalar type `double` is a parameter `α` carrying only `0`, `+` and `*`; no
  algebraic law is assumed by the embedding, so every sum is kept in the order in which
  the code adds its terms.
* A function returns `Except Fault _`.  `Fault.dolfin_error` is the exception raised by
  `dolfin_error`; `Fault.out_of_bounds` marks an access outside the bounds of a vector
  or array, to which C++ gives no meaning.
* The counters and the value size are `std::size_t`, kept as natural numbers with
  the wrap-around of unsigned arithmetic: an increment of `SIZE_MAX` gives zero, the
  decrement of zero in `erase_snapshot` gives `SIZE_MAX`, and the product of the value
  dimensions is reduced modulo `SIZE_MAX + 1` at every factor.
* The collaborators (mesh, finite element, field) are records of the functions the
  code calls on them.
-/

namespace dolfin

/-! ## Faults and vectors -/

/-- The two ways in which a call may fail to produce a result. -/
inductive Fault where
  | dolfin_error
  | out_of_bounds
  deriving DecidableEq

/-- Read `v[i]`; outside the bounds of `v` the read has no meaning. -/
def vec_get {β : Type} (v : List β) (i : Nat) : Except Fault β :=
  match v[i]? with
  | some x => Except.ok x
  | none => Except.error Fault.out_of_bounds

/-- Update `v[i]` in place with the result of `f` on the element stored there. -/
def vec_modify {β : Type} (v : List β) (i : Nat) (f : β → Except Fault β) :
    Except Fault (List β) :=
  match v[i]? with
  | some x =>
    match f x with
    | Except.ok y => Except.ok (v.set i y)
    | Except.error e => Except.error e
  | none => Except.error Fault.out_of_bounds

/-- The loop `for (std::size_t k = 0; k < n; k++) body(k)` threading the state `s`. -/
def forLoop {σ : Type} : Nat → (Nat → σ → Except Fault σ) → σ → Except Fault σ
  | 0, _, s => Except.ok s
  | n + 1, body, s =>
    match forLoop n body s with
    | Except.ok t => body n t
    | Except.error e => Except.error e

/-- The largest `std::size_t`, which is what decrementing zero gives. -/
def SIZE_MAX : Nat := 2 ^ 64 - 1

/-- The value `std::numeric_limits<unsigned int>::max()`. -/
def UINT_MAX : Nat := 2 ^ 32 - 1

/-! ## Collaborators -/

/-- The calls made on `_element` (a `dolfin::FiniteElement`).  `evaluate_basis i x vc j`
is the entry `j` that `evaluate_basis(i, values, x, vc, 0)` writes to `values`, and
likewise `evaluate_basis_derivatives i x vc j` for the first derivatives. -/
structure FiniteElement (α : Type) where
  value_rank : Nat
  value_dimension : Nat → Nat
  space_dimension : Nat
  evaluate_basis : Nat → List α → List α → Nat → α
  evaluate_basis_derivatives : Nat → List α → List α → Nat → α

/-- The calls made on the function space `V`: the geometric dimension of its mesh, the
first-collision query of the mesh's bounding box tree (a cell index, or `UINT_MAX` when
no cell of this process contains the point), the vertex coordinates of a cell, and the
element. -/
structure FunctionSpace (α : Type) where
  dim : Nat
  compute_first_entity_collision : List α → Nat
  get_vertex_coordinates : Nat → List α
  element : FiniteElement α

/-! ## The probe -/

/-- The data members of `GradProbe`.  `cell_index` stands for `dolfin_cell` and
`ufc_cell`, which the code only hands back to the collaborators. -/
structure GradProbe (α : Type) where
  basis_matrix : List (List α)
  basis_grad_matrix : List (List α)
  coefficients : List α
  vertex_coordinates : List α
  _x : List α
  _element : FiniteElement α
  _value_size_loc : Nat
  _num_evals : Nat
  _num_grad_evals : Nat
  _geom_dim : Nat
  _probes : List (List α)
  _probes_grad : List (List α)
  cell_index : Nat

namespace GradProbe

variable {α : Type} [Zero α] [Add α] [Mul α]

/-- The statement `_probes[j][n] += c[i] * m[j][i]` on a table `t` of series. -/
def add_to_entry (t : List (List α)) (j n : Nat) (c : List α) (m : List (List α))
    (i : Nat) : Except Fault (List (List α)) :=
  match vec_get c i with
  | Except.error e => Except.error e
  | Except.ok ci =>
    match vec_get m j with
    | Except.error e => Except.error e
    | Except.ok row =>
      match vec_get row i with
      | Except.error e => Except.error e
      | Except.ok b =>
        vec_modify t j (fun s => vec_modify s n (fun y => Except.ok (y + ci * b)))

/-- The loop `for j < n: t[j].push_back(0.)`. -/
def make_room (n : Nat) (t : List (List α)) : Except Fault (List (List α)) :=
  forLoop n (fun j t => vec_modify t j (fun s => Except.ok (s ++ [0]))) t

/-- The double loop `for i < ndof: for j < n: t[j][at] += c[i] * m[j][i]`. -/
def accumulate (ndof n at_ : Nat) (c : List α) (m : List (List α))
    (t : List (List α)) : Except Fault (List (List α)) :=
  forLoop ndof (fun i t => forLoop n (fun j t => add_to_entry t j at_ c m i) t) t

/-- `GradProbe::eval`.  The argument `u` is the vector of local coefficients that
`u.restrict` writes to `coefficients` for the bound cell. -/
def eval (p : GradProbe α) (u : List α) : Except Fault (GradProbe α) :=
  let coefficients := u
  match make_room p._value_size_loc p._probes with
  | Except.error e => Except.error e
  | Except.ok t0 =>
    match accumulate p._element.space_dimension p._value_size_loc p._num_evals
        coefficients p.basis_matrix t0 with
    | Except.error e => Except.error e
    | Except.ok t1 =>
      Except.ok { p with coefficients := coefficients, _probes := t1,
                         _num_evals := (p._num_evals + 1) % (SIZE_MAX + 1) }

/-- `GradProbe::eval_grad`. -/
def eval_grad (p : GradProbe α) (u : List α) : Except Fault (GradProbe α) :=
  let coefficients := u
  match make_room p._value_size_loc p._probes with
  | Except.error e => Except.error e
  | Except.ok t0 =>
    match accumulate p._element.space_dimension p._value_size_loc p._num_evals
        coefficients p.basis_matrix t0 with
    | Except.error e => Except.error e
    | Except.ok t1 =>
      match make_room (p._value_size_loc * p._geom_dim) p._probes_grad with
      | Except.error e => Except.error e
      | Except.ok g0 =>
        match accumulate p._element.space_dimension (p._value_size_loc * p._geom_dim)
            p._num_grad_evals coefficients p.basis_grad_matrix g0 with
        | Except.error e => Except.error e
        | Except.ok g1 =>
          Except.ok { p with coefficients := coefficients, _probes := t1,
                             _probes_grad := g1,
                             _num_evals := (p._num_evals + 1) % (SIZE_MAX + 1),
                             _num_grad_evals :=
                               (p._num_grad_evals + 1) % (SIZE_MAX + 1) }

/-- The call `v.erase(v.begin() + i)`: defined only for `i < v.size()`. -/
def vec_erase {β : Type} (v : List β) (i : Nat) : Except Fault (List β) :=
  if i < v.length then Except.ok (v.eraseIdx i) else Except.error Fault.out_of_bounds

/-- `GradProbe::erase_snapshot`. -/
def erase_snapshot (p : GradProbe α) (i : Nat) : Except Fault (GradProbe α) :=
  match forLoop p._value_size_loc (fun j t => vec_modify t j (fun s => vec_erase s i))
      p._probes with
  | Except.error e => Except.error e
  | Except.ok t =>
    Except.ok { p with _probes := t,
                       _num_evals := if p._num_evals = 0 then SIZE_MAX
                                     else p._num_evals - 1 }

/-- `GradProbe::clear`. -/
def clear (p : GradProbe α) : Except Fault (GradProbe α) :=
  match forLoop p._value_size_loc (fun j t => vec_modify t j (fun _ => Except.ok []))
      p._probes with
  | Except.error e => Except.error e
  | Except.ok t => Except.ok { p with _probes := t, _num_evals := 0 }

/-- `GradProbe::clear_grad`. -/
def clear_grad (p : GradProbe α) : Except Fault (GradProbe α) :=
  match forLoop (p._value_size_loc * p._geom_dim)
      (fun j t => vec_modify t j (fun _ => Except.ok [])) p._probes_grad with
  | Except.error e => Except.error e
  | Except.ok t => Except.ok { p with _probes_grad := t, _num_grad_evals := 0 }

/-- `GradProbe::restart_probe(const Array<double>& u)`. -/
def restart_probe (p : GradProbe α) (u : List α) : Except Fault (GradProbe α) :=
  match forLoop p._value_size_loc
      (fun j t =>
        match vec_get u j with
        | Except.error e => Except.error e
        | Except.ok uj => vec_modify t j (fun s => Except.ok (s ++ [uj])))
      p._probes with
  | Except.error e => Except.error e
  | Except.ok t => Except.ok { p with _probes := t }

/-- The virtual `restart_probe(u, num_evals)` of the header: it only raises. -/
def restart_probe_num_evals (_p : GradProbe α) (_u : List α) (_num_evals : Nat) :
    Except Fault (GradProbe α) :=
  Except.error Fault.dolfin_error

/-! ### Retrieval -/

/-- `GradProbe::get_probe_sub`. -/
def get_probe_sub (p : GradProbe α) (i : Nat) : Except Fault (List α) :=
  vec_get p._probes i

/-- `GradProbe::get_probe_grad_sub`. -/
def get_probe_grad_sub (p : GradProbe α) (i : Nat) : Except Fault (List α) :=
  vec_get p._probes_grad i

/-- The loop `for j < n: x[j] = t[j][i]` on a vector `x` of `n` zeros. -/
def column (n : Nat) (t : List (List α)) (i : Nat) : Except Fault (List α) :=
  forLoop n
    (fun j x =>
      match vec_get t j with
      | Except.error e => Except.error e
      | Except.ok s =>
        match vec_get s i with
        | Except.error e => Except.error e
        | Except.ok v => vec_modify x j (fun _ => Except.ok v))
    (List.replicate n 0)

/-- `GradProbe::get_probe_at_snapshot`. -/
def get_probe_at_snapshot (p : GradProbe α) (i : Nat) : Except Fault (List α) :=
  column p._value_size_loc p._probes i

/-- `GradProbe::get_probe_grad_at_snapshot`. -/
def get_probe_grad_at_snapshot (p : GradProbe α) (i : Nat) : Except Fault (List α) :=
  column (p._value_size_loc * p._element.space_dimension) p._probes_grad i

/-- `GradProbe::get_probe_component_and_snapshot`. -/
def get_probe_component_and_snapshot (p : GradProbe α) (comp i : Nat) :
    Except Fault α :=
  match vec_get p._probes comp with
  | Except.error e => Except.error e
  | Except.ok s => vec_get s i

/-- `GradProbe::get_probe_grad_component_and_snapshot`. -/
def get_probe_grad_component_and_snapshot (p : GradProbe α) (comp i : Nat) :
    Except Fault α :=
  match vec_get p._probes_grad comp with
  | Except.error e => Except.error e
  | Except.ok s => vec_get s i

/-- `GradProbe::coordinates`. -/
def coordinates (p : GradProbe α) : List α := p._x

/-- `GradProbe::value_size`. -/
def value_size (p : GradProbe α) : Nat := p._value_size_loc

/-- `GradProbe::number_of_evaluations`. -/
def number_of_evaluations (p : GradProbe α) : Nat := p._num_evals

/-! ### Construction -/

/-- The coordinates read by `Point(gdim, x.data())`: the first `gdim` entries of `x`. -/
def point (gdim : Nat) (x : List α) : Except Fault (List α) :=
  forLoop gdim
    (fun i pt =>
      match vec_get x i with
      | Except.error e => Except.error e
      | Except.ok xi => Except.ok (pt ++ [xi]))
    []

/-- The loop `for i < 3: _x[i] = (i < gdim ? x[i] : 0.0)` on `_x` resized to 3. -/
def store_position (gdim : Nat) (x : List α) : Except Fault (List α) :=
  forLoop 3
    (fun i v =>
      if i < gdim then
        match vec_get x i with
        | Except.error e => Except.error e
        | Except.ok xi => vec_modify v i (fun _ => Except.ok xi)
      else vec_modify v i (fun _ => Except.ok 0))
    (List.replicate 3 0)

/-- The loop `_value_size_loc = 1; for i < rank: _value_size_loc *= value_dimension(i)`. -/
def compute_value_size (e : FiniteElement α) : Nat :=
  (List.range e.value_rank).foldl
    (fun n i => (n * e.value_dimension i) % (SIZE_MAX + 1)) 1

/-- The loops filling a table of `rows` rows and `ndof` columns, resized to zeros, with
`m[j][i] = basis[j]` where `basis` holds what the element wrote for the dof `i`. -/
def fill_matrix (rows ndof : Nat) (basis : Nat → Nat → α) : Except Fault (List (List α)) :=
  forLoop ndof
    (fun i m =>
      forLoop rows
        (fun j m => vec_modify m j (fun row => vec_modify row i (fun _ => Except.ok (basis i j))))
        m)
    (List.replicate rows (List.replicate ndof 0))

/-- `GradProbe::GradProbe(const Array<double>& x, const FunctionSpace& V)`. -/
def construct (x : List α) (V : FunctionSpace α) : Except Fault (GradProbe α) :=
  let gdim := V.dim
  match point gdim x with
  | Except.error e => Except.error e
  | Except.ok pt =>
    let cell_id := V.compute_first_entity_collision pt
    if cell_id ≠ UINT_MAX then
      match store_position gdim x with
      | Except.error e => Except.error e
      | Except.ok _x =>
        let _value_size_loc := compute_value_size V.element
        let vertex_coordinates := V.get_vertex_coordinates cell_id
        match fill_matrix _value_size_loc V.element.space_dimension
            (fun i j => V.element.evaluate_basis i x vertex_coordinates j) with
        | Except.error e => Except.error e
        | Except.ok basis_matrix =>
          match fill_matrix (_value_size_loc * gdim) V.element.space_dimension
              (fun i j => V.element.evaluate_basis_derivatives i x vertex_coordinates j) with
          | Except.error e => Except.error e
          | Except.ok basis_grad_matrix =>
            Except.ok
              { basis_matrix := basis_matrix
                basis_grad_matrix := basis_grad_matrix
                coefficients := List.replicate V.element.space_dimension 0
                vertex_coordinates := vertex_coordinates
                _x := _x
                _element := V.element
                _value_size_loc := _value_size_loc
                _num_evals := 0
                _num_grad_evals := 0
                _geom_dim := gdim
                _probes := List.replicate _value_size_loc []
                _probes_grad := List.replicate (_value_size_loc * gdim) []
                cell_index := cell_id }
    else Except.error Fault.dolfin_error

/-! ### Sequences of calls -/

/-- The public calls on a constructed probe. -/
inductive Call (α : Type) where
  | eval (u : List α)
  | eval_grad (u : List α)
  | erase_snapshot (i : Nat)
  | clear
  | clear_grad
  | restart_probe (u : List α)
  | restart_probe_num_evals (u : List α) (num_evals : Nat)
  | get_probe_sub (i : Nat)
  | get_probe_grad_sub (i : Nat)
  | get_probe_at_snapshot (i : Nat)
  | get_probe_grad_at_snapshot (i : Nat)
  | get_probe_component_and_snapshot (comp i : Nat)
  | get_probe_grad_component_and_snapshot (comp i : Nat)
  | coordinates
  | value_size
  | number_of_evaluations

/-- A retrieval returns to its caller and leaves the object as it was. -/
def retrieved {β : Type} (p : GradProbe α) (r : Except Fault β) : Except Fault (GradProbe α) :=
  match r with
  | Except.ok _ => Except.ok p
  | Except.error e => Except.error e

/-- The object after one call. -/
def step (p : GradProbe α) : Call α → Except Fault (GradProbe α)
  | Call.eval u => p.eval u
  | Call.eval_grad u => p.eval_grad u
  | Call.erase_snapshot i => p.erase_snapshot i
  | Call.clear => p.clear
  | Call.clear_grad => p.clear_grad
  | Call.restart_probe u => p.restart_probe u
  | Call.restart_probe_num_evals u n => p.restart_probe_num_evals u n
  | Call.get_probe_sub i => retrieved p (p.get_probe_sub i)
  | Call.get_probe_grad_sub i => retrieved p (p.get_probe_grad_sub i)
  | Call.get_probe_at_snapshot i => retrieved p (p.get_probe_at_snapshot i)
  | Call.get_probe_grad_at_snapshot i => retrieved p (p.get_probe_grad_at_snapshot i)
  | Call.get_probe_component_and_snapshot c i =>
    retrieved p (p.get_probe_component_and_snapshot c i)
  | Call.get_probe_grad_component_and_snapshot c i =>
    retrieved p (p.get_probe_grad_component_and_snapshot c i)
  | Call.coordinates => Except.ok p
  | Call.value_size => Except.ok p
  | Call.number_of_evaluations => Except.ok p

/-- The object after a sequence of calls, made one after the other. -/
def run (p : GradProbe α) : List (Call α) → Except Fault (GradProbe α)
  | [] => Except.ok p
  | c :: cs =>
    match step p c with
    | Except.ok q => run q cs
    | Except.error e => Except.error e

/-! ### Vocabulary of the statements -/

/-- The sum of `f 0, ..., f (n - 1)`, added in this order starting from zero. -/
def sum_to (f : Nat → α) : Nat → α
  | 0 => 0
  | n + 1 => sum_to f n + f n

/-- The entry `m[j][i]` of a table, zero outside the table. -/
def entry (m : List (List α)) (j i : Nat) : α := (m.getD j []).getD i 0

/-- The sum over the dofs `i < ndof` of `c[i] * m[j][i]`. -/
def weighted_sum (ndof : Nat) (c : List α) (m : List (List α)) (j : Nat) : α :=
  sum_to (fun i => c.getD i 0 * entry m j i) ndof

/-- The sizes that the constructor gives to the tables and that no call changes: one
value series per component, one gradient series per component and direction, and one
row of weights per series with one weight per local dof. -/
structure Shaped (p : GradProbe α) : Prop where
  probes : p._probes.length = p._value_size_loc
  probes_grad : p._probes_grad.length = p._value_size_loc * p._geom_dim
  basis : p.basis_matrix.length = p._value_size_loc
  basis_row : ∀ row ∈ p.basis_matrix, row.length = p._element.space_dimension
  basis_grad : p.basis_grad_matrix.length = p._value_size_loc * p._geom_dim
  basis_grad_row : ∀ row ∈ p.basis_grad_matrix, row.length = p._element.space_dimension

/-- Every value series has `_num_evals` entries. -/
def ValuesCounted (p : GradProbe α) : Prop := ∀ s ∈ p._probes, s.length = p._num_evals

/-- Every gradient series has `_num_grad_evals` entries. -/
def GradsCounted (p : GradProbe α) : Prop :=
  ∀ s ∈ p._probes_grad, s.length = p._num_grad_evals

/-- Every gradient series has `len` entries and `_num_grad_evals` holds `len` as a
`std::size_t`. -/
def GradsCountedTo (p : GradProbe α) (len : Nat) : Prop :=
  (∀ s ∈ p._probes_grad, s.length = len) ∧ p._num_grad_evals = len % (SIZE_MAX + 1)

/-! ### Sample data -/

/-- A scalar element with two local dofs whose basis functions take the values `1` and
`2`, and have the derivatives `-1` and `1`, wherever they are evaluated. -/
def sample_element : FiniteElement Int :=
  { value_rank := 0
    value_dimension := fun _ => 1
    space_dimension := 2
    evaluate_basis := fun i _ _ _ => if i = 0 then 1 else 2
    evaluate_basis_derivatives := fun i _ _ _ => if i = 0 then -1 else 1 }

/-- A one-dimensional mesh whose cell `0` contains every point. -/
def sample_space : FunctionSpace Int :=
  { dim := 1
    compute_first_entity_collision := fun _ => 0
    get_vertex_coordinates := fun _ => [0, 1]
    element := sample_element }

/-- The probe that the constructor returns for the point `5` of `sample_space`. -/
def sample_probe : GradProbe Int :=
  { basis_matrix := [[1, 2]]
    basis_grad_matrix := [[-1, 1]]
    coefficients := [0, 0]
    vertex_coordinates := [0, 1]
    _x := [5, 0, 0]
    _element := sample_element
    _value_size_loc := 1
    _num_evals := 0
    _num_grad_evals := 0
    _geom_dim := 1
    _probes := [[]]
    _probes_grad := [[]]
    cell_index := 0 }

/-- The linear element on the interval `[0, 1]`: the basis functions `1 - x` and `x`. -/
def linear_element : FiniteElement Rat :=
  { value_rank := 0
    value_dimension := fun _ => 1
    space_dimension := 2
    evaluate_basis := fun i x _ _ => if i = 0 then 1 - x.getD 0 0 else x.getD 0 0
    evaluate_basis_derivatives := fun i _ _ _ => if i = 0 then -1 else 1 }

/-- A probe at the midpoint `1/2` of the two-node linear element on `[0, 1]`: both
basis functions are `1/2` there and their slopes are `-1` and `1`. -/
def midpoint_probe : GradProbe Rat :=
  { basis_matrix := [[1 / 2, 1 / 2]]
    basis_grad_matrix := [[-1, 1]]
    coefficients := [0, 0]
    vertex_coordinates := [0, 1]
    _x := [1 / 2, 0, 0]
    _element := linear_element
    _value_size_loc := 1
    _num_evals := 0
    _num_grad_evals := 0
    _geom_dim := 1
    _probes := [[]]
    _probes_grad := [[]]
    cell_index := 0 }

/-- The sample probe after `eval` on the coefficients `[2, 4]`, `[1, 1]` and `[0, 3]`. -/
def sample_three : GradProbe Int :=
  { sample_probe with
    coefficients := [0, 3]
    _probes := [[10, 3, 6]]
    _num_evals := 3 }

/-- The sample probe after `eval` on `[2, 4]` and `eval_grad` on `[1, 1]`. -/
def sample_mixed : GradProbe Int :=
  { sample_probe with
    coefficients := [1, 1]
    _probes := [[10, 3]]
    _probes_grad := [[0]]
    _num_evals := 2
    _num_grad_evals := 1 }

/-- A probe of a field with two components, holding one snapshot `(1, 2)`. -/
def sample_pair : GradProbe Int :=
  { sample_probe with
    basis_matrix := [[1, 2], [3, 4]]
    basis_grad_matrix := [[-1, 1], [0, 0]]
    _value_size_loc := 2
    _probes := [[1], [2]]
    _probes_grad := [[], []]
    _num_evals := 1 }

/-- A vector element with two components and three local dofs; the component `j` of the
basis function `i` is `10 * i + j` and the entry `k` of its gradient is `100 * i + k`. -/
def plane_element : FiniteElement Int :=
  { value_rank := 1
    value_dimension := fun _ => 2
    space_dimension := 3
    evaluate_basis := fun i _ _ j => ((10 * i + j : Nat) : Int)
    evaluate_basis_derivatives := fun i _ _ k => ((100 * i + k : Nat) : Int) }

/-- A two-dimensional mesh whose cell `4` contains the point `(1, 2)` and no other. -/
def plane_space : FunctionSpace Int :=
  { dim := 2
    compute_first_entity_collision := fun pt => if pt = [1, 2] then 4 else UINT_MAX
    get_vertex_coordinates := fun _ => [0, 0, 3, 0, 0, 3]
    element := plane_element }

/-- The probe that the constructor returns for the point `(1, 2)` of `plane_space`. -/
def plane_probe : GradProbe Int :=
  { basis_matrix := [[0, 10, 20], [1, 11, 21]]
    basis_grad_matrix := [[0, 100, 200], [1, 101, 201], [2, 102, 202], [3, 103, 203]]
    coefficients := [0, 0, 0]
    vertex_coordinates := [0, 0, 3, 0, 0, 3]
    _x := [1, 2, 0]
    _element := plane_element
    _value_size_loc := 2
    _num_evals := 0
    _num_grad_evals := 0
    _geom_dim := 2
    _probes := [[], []]
    _probes_grad := [[], [], [], []]
    cell_index := 4 }

/-- The sample probe after `restart_probe` on `[7]`. -/
def sample_restarted : GradProbe Int :=
  { sample_probe with _probes := [[7]] }

/-- The sample probe after `eval_grad` on `[2, 4]`. -/
def sample_graded : GradProbe Int :=
  { sample_probe with
    coefficients := [2, 4]
    _probes := [[10]]
    _probes_grad := [[2]]
    _num_evals := 1
    _num_grad_evals := 1 }

end GradProbe

namespace GradProbe

variable {α : Type}

/-! ## Lemmas on the loops -/

theorem vec_get_some {β : Type} {v : List β} {i : Nat} {x : β} (h : v[i]? = some x) :
    vec_get v i = Except.ok x := by
  simp [vec_get, h]

theorem vec_get_none {β : Type} {v : List β} {i : Nat} (h : v.length ≤ i) :
    vec_get v i = Except.error Fault.out_of_bounds := by
  simp [vec_get, List.getElem?_eq_none h]

theorem vec_modify_some {β : Type} {v : List β} {i : Nat} {x y : β}
    {f : β → Except Fault β} (h : v[i]? = some x) (hf : f x = Except.ok y) :
    vec_modify v i f = Except.ok (v.set i y) := by
  simp [vec_modify, h, hf]

theorem vec_modify_ok {β : Type} {v r : List β} {i : Nat} {f : β → Except Fault β}
    (h : vec_modify v i f = Except.ok r) :
    ∃ x y, v[i]? = some x ∧ f x = Except.ok y ∧ r = v.set i y := by
  unfold vec_modify at h
  cases hx : v[i]? with
  | none => simp [hx] at h
  | some x =>
    simp only [hx] at h
    cases hy : f x with
    | error e => simp [hy] at h
    | ok y =>
      simp only [hy, Except.ok.injEq] at h
      exact ⟨x, y, rfl, hy, h.symm⟩

theorem forLoop_succ {σ : Type} (n : Nat) (body : Nat → σ → Except Fault σ) (s t : σ)
    (h : forLoop n body s = Except.ok t) : forLoop (n + 1) body s = body n t := by
  simp [forLoop, h]

theorem forLoop_succ_ok {σ : Type} {n : Nat} {body : Nat → σ → Except Fault σ} {s r : σ}
    (h : forLoop (n + 1) body s = Except.ok r) :
    ∃ t, forLoop n body s = Except.ok t ∧ body n t = Except.ok r := by
  simp only [forLoop] at h
  cases ht : forLoop n body s with
  | error e => simp [ht] at h
  | ok t => simp only [ht] at h; exact ⟨t, rfl, h⟩

/-- A property kept by every iteration that returns is kept by the loop. -/
theorem forLoop_keeps {σ : Type} (P : σ → Prop) (body : Nat → σ → Except Fault σ)
    (hbody : ∀ i s t, P s → body i s = Except.ok t → P t) :
    ∀ (n : Nat) (s r : σ), P s → forLoop n body s = Except.ok r → P r := by
  intro n
  induction n with
  | zero => intro s r hs h; simp [forLoop] at h; exact h ▸ hs
  | succ n ih =>
    intro s r hs h
    obtain ⟨t, ht, hb⟩ := forLoop_succ_ok h
    exact hbody n t r (ih s t hs ht) hb

/-- A loop whose iteration `j` rewrites the row `j` of a table and nothing else. -/
theorem forLoop_rows {β : Type} (body : Nat → List β → Except Fault (List β))
    (g : Nat → β → β) (t : List β) :
    ∀ (n : Nat), n ≤ t.length →
      (∀ j x t', j < n → t[j]? = some x → t'[j]? = some x →
        body j t' = Except.ok (t'.set j (g j x))) →
      ∃ r, forLoop n body t = Except.ok r ∧ r.length = t.length ∧
        ∀ j, r[j]? = if j < n then (t[j]?).map (g j) else t[j]? := by
  intro n
  induction n with
  | zero => intro _ _; exact ⟨t, rfl, rfl, by simp⟩
  | succ n ih =>
    intro hn hbody
    obtain ⟨r, hr, hlen, hget⟩ :=
      ih (Nat.le_of_succ_le hn) (fun j x t' hj => hbody j x t' (Nat.lt_succ_of_lt hj))
    have hnt : n < t.length := hn
    have hrn : r[n]? = some t[n] := by
      rw [hget n]; simp [List.getElem?_eq_getElem hnt]
    refine ⟨r.set n (g n t[n]), ?_, by simp [hlen], ?_⟩
    · rw [forLoop_succ n body t r hr]
      exact hbody n t[n] r (Nat.lt_succ_self n) (List.getElem?_eq_getElem hnt) hrn
    · intro j
      rw [List.getElem?_set]
      by_cases hj : n = j
      · subst hj
        simp [hlen, hnt, List.getElem?_eq_getElem hnt]
      · have h1 : (j < n + 1) = (j < n) := by
          apply propext; constructor <;> intro h <;> omega
        simp only [hj, if_false, h1]
        exact hget j

theorem make_room_rows [Zero α] (n : Nat) (t : List (List α)) (hn : n ≤ t.length) :
    ∃ r, make_room n t = Except.ok r ∧ r.length = t.length ∧
      ∀ j, r[j]? = if j < n then (t[j]?).map (fun s => s ++ [0]) else t[j]? := by
  unfold make_room
  apply forLoop_rows _ (fun _ s => s ++ [0]) t n hn
  intro j x t' _ _ hx'
  exact vec_modify_some hx' rfl

theorem add_to_entry_rows [Zero α] [Add α] [Mul α]
    (n at_ i : Nat) (c : List α) (m t : List (List α))
    (hn : n ≤ t.length) (hc : i < c.length)
    (hm : ∀ j row, j < n → m[j]? = some row → i < row.length)
    (hmn : n ≤ m.length)
    (hat : ∀ j x, j < n → t[j]? = some x → at_ < x.length) :
    ∃ r, forLoop n (fun j t => add_to_entry t j at_ c m i) t = Except.ok r ∧
      r.length = t.length ∧
      ∀ j, r[j]? = if j < n then
          (t[j]?).map (fun x => x.set at_ (x.getD at_ 0 + c.getD i 0 * entry m j i))
        else t[j]? := by
  apply forLoop_rows _ (fun j x => x.set at_ (x.getD at_ 0 + c.getD i 0 * entry m j i)) t n hn
  intro j x t' hj hx hx'
  have hjm : j < m.length := Nat.lt_of_lt_of_le hj hmn
  have hrow : i < (m[j]).length := hm j m[j] hj (List.getElem?_eq_getElem hjm)
  have hatx : at_ < x.length := hat j x hj hx
  have e1 : vec_get c i = Except.ok (c.getD i 0) := by
    apply vec_get_some; simp [List.getD_eq_getElem?_getD, List.getElem?_eq_getElem hc]
  have e2 : vec_get m j = Except.ok m[j] := vec_get_some (List.getElem?_eq_getElem hjm)
  have e3 : vec_get m[j] i = Except.ok (entry m j i) := by
    apply vec_get_some
    simp [entry, List.getD_eq_getElem?_getD, List.getElem?_eq_getElem hjm,
      List.getElem?_eq_getElem hrow]
  have e4 : vec_modify x at_ (fun y => Except.ok (y + c.getD i 0 * entry m j i))
      = Except.ok (x.set at_ (x.getD at_ 0 + c.getD i 0 * entry m j i)) := by
    apply vec_modify_some (List.getElem?_eq_getElem hatx)
    simp [List.getD_eq_getElem?_getD, List.getElem?_eq_getElem hatx]
  simp only [add_to_entry, e1, e2, e3]
  exact vec_modify_some hx' e4

theorem accumulate_rows [Zero α] [Add α] [Mul α] (n at_ : Nat) (c : List α) (m t : List (List α))
    (hn : n ≤ t.length) (hmn : n ≤ m.length)
    (hat : ∀ j x, j < n → t[j]? = some x → x[at_]? = some 0) :
    ∀ (ndof : Nat), ndof ≤ c.length →
      (∀ j row, j < n → m[j]? = some row → ndof ≤ row.length) →
      ∃ r, accumulate ndof n at_ c m t = Except.ok r ∧ r.length = t.length ∧
        ∀ j, r[j]? = if j < n then
            (t[j]?).map (fun x => x.set at_ (weighted_sum ndof c m j))
          else t[j]? := by
  intro ndof
  induction ndof with
  | zero =>
    intro _ _
    refine ⟨t, rfl, rfl, ?_⟩
    intro j
    by_cases hj : j < n
    · simp only [hj, if_true]
      cases hx : t[j]? with
      | none => rfl
      | some x =>
        have h0 := hat j x hj hx
        obtain ⟨hlt, hval⟩ := List.getElem?_eq_some.mp h0
        simp only [Option.map_some', weighted_sum, sum_to]
        congr 1
        apply List.ext_getElem?
        intro k
        rw [List.getElem?_set]
        by_cases hk : at_ = k
        · subst hk; simp [hlt, h0]
        · simp [hk]
    · simp [hj]
  | succ k ih =>
    intro hc hm
    obtain ⟨r, hr, hlen, hget⟩ :=
      ih (Nat.le_of_succ_le hc) (fun j row hj h => Nat.le_of_succ_le (hm j row hj h))
    have hatr : ∀ j x, j < n → r[j]? = some x → at_ < x.length := by
      intro j x hj hx
      rw [hget j] at hx
      simp only [hj, if_true] at hx
      cases hy : t[j]? with
      | none => simp [hy] at hx
      | some y =>
        simp only [hy, Option.map_some', Option.some.injEq] at hx
        obtain ⟨hlt, _⟩ := List.getElem?_eq_some.mp (hat j y hj hy)
        rw [← hx]; simpa using hlt
    obtain ⟨r', hr', hlen', hget'⟩ :=
      add_to_entry_rows n at_ k c m r (hlen ▸ hn) hc
        (fun j row hj h => hm j row hj h) hmn hatr
    refine ⟨r', ?_, hlen'.trans hlen, ?_⟩
    · unfold accumulate at hr ⊢
      rw [forLoop_succ k _ t r hr]
      exact hr'
    · intro j
      rw [hget' j, hget j]
      by_cases hj : j < n
      · simp only [hj, if_true]
        cases hy : t[j]? with
        | none => rfl
        | some y =>
          obtain ⟨hlt, _⟩ := List.getElem?_eq_some.mp (hat j y hj hy)
          simp only [Option.map_some', weighted_sum, sum_to, List.set_set]
          congr 2
          simp [List.getD_eq_getElem?_getD, hlt]
      · simp [hj]

/-- Making room and accumulating, as `eval` does on the value series and `eval_grad`
also on the gradient series: each of the series gets the weighted sum appended. -/
theorem push_weighted [Zero α] [Add α] [Mul α] (n at_ ndof : Nat) (c : List α) (m t : List (List α))
    (ht : t.length = n) (hm : m.length = n) (hrow : ∀ row ∈ m, row.length = ndof)
    (hcount : ∀ s ∈ t, s.length = at_) (hc : c.length = ndof) :
    ∃ t0 t1, make_room n t = Except.ok t0 ∧ accumulate ndof n at_ c m t0 = Except.ok t1 ∧
      t1.length = n ∧
      ∀ j, t1[j]? = (t[j]?).map (fun s => s ++ [weighted_sum ndof c m j]) := by
  obtain ⟨t0, h0, hlen0, hget0⟩ := make_room_rows n t (Nat.le_of_eq ht.symm)
  have hat : ∀ j x, j < n → t0[j]? = some x → x[at_]? = some 0 := by
    intro j x hj hx
    rw [hget0 j] at hx
    simp only [hj, if_true] at hx
    cases hy : t[j]? with
    | none => simp [hy] at hx
    | some y =>
      simp only [hy, Option.map_some', Option.some.injEq] at hx
      have hyl : y.length = at_ := hcount y (List.mem_iff_getElem?.mpr ⟨j, hy⟩)
      rw [← hx, ← hyl]
      exact List.getElem?_concat_length y 0
  obtain ⟨t1, h1, hlen1, hget1⟩ :=
    accumulate_rows n at_ c m t0 (by omega) (Nat.le_of_eq hm.symm) hat ndof
      (Nat.le_of_eq hc.symm)
      (fun j row _ h => Nat.le_of_eq (hrow row (List.mem_iff_getElem?.mpr ⟨j, h⟩)).symm)
  refine ⟨t0, t1, h0, h1, by omega, ?_⟩
  intro j
  rw [hget1 j]
  by_cases hj : j < n
  · simp only [hj, if_true, hget0 j]
    cases hy : t[j]? with
    | none => rfl
    | some y =>
      have hyl : y.length = at_ := hcount y (List.mem_iff_getElem?.mpr ⟨j, hy⟩)
      simp only [Option.map_some', Option.some.injEq]
      rw [← hyl, List.set_append_right _ _ (Nat.le_refl _)]
      simp
  · have h1 : t[j]? = none := List.getElem?_eq_none (by omega)
    have h2 : t0[j]? = none := List.getElem?_eq_none (by omega)
    simp [hj, h1, h2]

/-- The result of `eval` on a probe with a counted value table. -/
theorem eval_result [Zero α] [Add α] [Mul α]
    (p : GradProbe α) (u : List α) (hs : Shaped p) (hv : ValuesCounted p)
    (hu : u.length = p._element.space_dimension) :
    ∃ t1, p.eval u = Except.ok
        { p with
          coefficients := u
          _probes := t1
          _num_evals := (p._num_evals + 1) % (SIZE_MAX + 1) } ∧
      t1.length = p._value_size_loc ∧
      ∀ j, t1[j]? = (p._probes[j]?).map
        (fun s => s ++ [weighted_sum p._element.space_dimension u p.basis_matrix j]) := by
  obtain ⟨t0, t1, h0, h1, hlen, hget⟩ :=
    push_weighted p._value_size_loc p._num_evals p._element.space_dimension u
      p.basis_matrix p._probes hs.probes hs.basis hs.basis_row hv hu
  exact ⟨t1, by simp [eval, h0, h1], hlen, hget⟩

theorem eval_ok [Zero α] [Add α] [Mul α]
    {p q : GradProbe α} {u : List α} (h : p.eval u = Except.ok q) :
    ∃ t0 t1, make_room p._value_size_loc p._probes = Except.ok t0 ∧
      accumulate p._element.space_dimension p._value_size_loc p._num_evals u
        p.basis_matrix t0 = Except.ok t1 ∧
      q = { p with
            coefficients := u
            _probes := t1
            _num_evals := (p._num_evals + 1) % (SIZE_MAX + 1) } := by
  unfold eval at h
  cases h0 : make_room p._value_size_loc p._probes with
  | error e => simp [h0] at h
  | ok t0 =>
    simp only [h0] at h
    cases h1 : accumulate p._element.space_dimension p._value_size_loc p._num_evals u
        p.basis_matrix t0 with
    | error e => simp [h1] at h
    | ok t1 =>
      simp only [h1, Except.ok.injEq] at h
      exact ⟨t0, t1, rfl, h1, h.symm⟩

theorem eval_grad_ok [Zero α] [Add α] [Mul α]
    {p q : GradProbe α} {u : List α} (h : p.eval_grad u = Except.ok q) :
    ∃ t0 t1 g0 g1, make_room p._value_size_loc p._probes = Except.ok t0 ∧
      accumulate p._element.space_dimension p._value_size_loc p._num_evals u
        p.basis_matrix t0 = Except.ok t1 ∧
      make_room (p._value_size_loc * p._geom_dim) p._probes_grad = Except.ok g0 ∧
      accumulate p._element.space_dimension (p._value_size_loc * p._geom_dim)
        p._num_grad_evals u p.basis_grad_matrix g0 = Except.ok g1 ∧
      q =
          { p with
            coefficients := u
            _probes := t1
            _probes_grad := g1
            _num_evals := (p._num_evals + 1) % (SIZE_MAX + 1)
            _num_grad_evals := (p._num_grad_evals + 1) % (SIZE_MAX + 1) } := by
  unfold eval_grad at h
  cases h0 : make_room p._value_size_loc p._probes with
  | error e => simp [h0] at h
  | ok t0 =>
    simp only [h0] at h
    cases h1 : accumulate p._element.space_dimension p._value_size_loc p._num_evals u
        p.basis_matrix t0 with
    | error e => simp [h1] at h
    | ok t1 =>
      simp only [h1] at h
      cases h2 : make_room (p._value_size_loc * p._geom_dim) p._probes_grad with
      | error e => simp [h2] at h
      | ok g0 =>
        simp only [h2] at h
        cases h3 : accumulate p._element.space_dimension (p._value_size_loc * p._geom_dim)
            p._num_grad_evals u p.basis_grad_matrix g0 with
        | error e => simp [h3] at h
        | ok g1 =>
          simp only [h3, Except.ok.injEq] at h
          exact ⟨t0, t1, g0, g1, rfl, h1, rfl, h3, h.symm⟩

theorem erase_snapshot_ok {p q : GradProbe α} {i : Nat}
    (h : p.erase_snapshot i = Except.ok q) :
    ∃ t, forLoop p._value_size_loc (fun j t => vec_modify t j (fun s => vec_erase s i))
        p._probes = Except.ok t ∧
      q =
          { p with
            _probes := t
            _num_evals := if p._num_evals = 0 then SIZE_MAX else p._num_evals - 1 } := by
  unfold erase_snapshot at h
  cases h0 : forLoop p._value_size_loc (fun j t => vec_modify t j (fun s => vec_erase s i))
      p._probes with
  | error e => simp [h0] at h
  | ok t =>
    simp only [h0, Except.ok.injEq] at h
    exact ⟨t, rfl, h.symm⟩

theorem clear_ok {p q : GradProbe α} (h : p.clear = Except.ok q) :
    ∃ t, forLoop p._value_size_loc (fun j t => vec_modify t j (fun _ => Except.ok []))
        p._probes = Except.ok t ∧
      q = { p with _probes := t, _num_evals := 0 } := by
  unfold clear at h
  cases h0 : forLoop p._value_size_loc (fun j t => vec_modify t j (fun _ => Except.ok []))
      p._probes with
  | error e => simp [h0] at h
  | ok t =>
    simp only [h0, Except.ok.injEq] at h
    exact ⟨t, rfl, h.symm⟩

theorem clear_grad_ok {p q : GradProbe α} (h : p.clear_grad = Except.ok q) :
    ∃ t, forLoop (p._value_size_loc * p._geom_dim)
        (fun j t => vec_modify t j (fun _ => Except.ok [])) p._probes_grad = Except.ok t ∧
      q = { p with _probes_grad := t, _num_grad_evals := 0 } := by
  unfold clear_grad at h
  cases h0 : forLoop (p._value_size_loc * p._geom_dim)
      (fun j t => vec_modify t j (fun _ => Except.ok [])) p._probes_grad with
  | error e => simp [h0] at h
  | ok t =>
    simp only [h0, Except.ok.injEq] at h
    exact ⟨t, rfl, h.symm⟩

theorem restart_probe_ok {p q : GradProbe α} {u : List α}
    (h : p.restart_probe u = Except.ok q) :
    ∃ t, forLoop p._value_size_loc
        (fun j t =>
          match vec_get u j with
          | Except.error e => Except.error e
          | Except.ok uj => vec_modify t j (fun s => Except.ok (s ++ [uj])))
        p._probes = Except.ok t ∧
      q = { p with _probes := t } := by
  unfold restart_probe at h
  split at h
  · simp at h
  · rename_i t ht
    simp only [Except.ok.injEq] at h
    exact ⟨t, ht, h.symm⟩

theorem retrieved_ok {β : Type} {p q : GradProbe α} {r : Except Fault β}
    (h : retrieved p r = Except.ok q) : q = p := by
  unfold retrieved at h
  split at h
  · simp only [Except.ok.injEq] at h; exact h.symm
  · simp at h

/-- Every call that returns leaves the members other than the two tables of series, the
two counters and the work vector `coefficients` as they were. -/
theorem step_frame [Zero α] [Add α] [Mul α]
    {p q : GradProbe α} {c : Call α} (h : step p c = Except.ok q) :
    q.basis_matrix = p.basis_matrix ∧ q.basis_grad_matrix = p.basis_grad_matrix ∧
      q.vertex_coordinates = p.vertex_coordinates ∧ q._x = p._x ∧
      q._element = p._element ∧ q._value_size_loc = p._value_size_loc ∧
      q._geom_dim = p._geom_dim ∧ q.cell_index = p.cell_index := by
  cases c with
  | eval u =>
    obtain ⟨_, _, _, _, rfl⟩ := eval_ok h
    simp
  | eval_grad u =>
    obtain ⟨_, _, _, _, _, _, _, _, rfl⟩ := eval_grad_ok h
    simp
  | erase_snapshot i =>
    obtain ⟨_, _, rfl⟩ := erase_snapshot_ok h
    simp
  | clear =>
    obtain ⟨_, _, rfl⟩ := clear_ok h
    simp
  | clear_grad =>
    obtain ⟨_, _, rfl⟩ := clear_grad_ok h
    simp
  | restart_probe u =>
    obtain ⟨_, _, rfl⟩ := restart_probe_ok h
    simp
  | restart_probe_num_evals u n => simp [step, restart_probe_num_evals] at h
  | get_probe_sub i => rw [retrieved_ok h]; simp
  | get_probe_grad_sub i => rw [retrieved_ok h]; simp
  | get_probe_at_snapshot i => rw [retrieved_ok h]; simp
  | get_probe_grad_at_snapshot i => rw [retrieved_ok h]; simp
  | get_probe_component_and_snapshot c i => rw [retrieved_ok h]; simp
  | get_probe_grad_component_and_snapshot c i => rw [retrieved_ok h]; simp
  | coordinates => simp only [step, Except.ok.injEq] at h; subst h; simp
  | value_size => simp only [step, Except.ok.injEq] at h; subst h; simp
  | number_of_evaluations => simp only [step, Except.ok.injEq] at h; subst h; simp

/-! ### The loops of `erase_snapshot`, `clear`, `clear_grad` and `restart_probe` -/

theorem erase_rows (n i : Nat) (t : List (List α)) (hn : n ≤ t.length)
    (hi : ∀ j x, j < n → t[j]? = some x → i < x.length) :
    ∃ r, forLoop n (fun j t => vec_modify t j (fun s => vec_erase s i)) t = Except.ok r ∧
      r.length = t.length ∧
      ∀ j, r[j]? = if j < n then (t[j]?).map (fun s => s.eraseIdx i) else t[j]? := by
  apply forLoop_rows _ (fun _ s => s.eraseIdx i) t n hn
  intro j x t' hj hx hx'
  exact vec_modify_some hx' (by simp [vec_erase, hi j x hj hx])

theorem clear_rows (n : Nat) (t : List (List α)) (hn : n ≤ t.length) :
    ∃ r, forLoop n (fun j t => vec_modify t j (fun _ => Except.ok [])) t = Except.ok r ∧
      r.length = t.length ∧
      ∀ j, r[j]? = if j < n then (t[j]?).map (fun _ => []) else t[j]? := by
  apply forLoop_rows _ (fun _ _ => []) t n hn
  intro j x t' _ _ hx'
  exact vec_modify_some hx' rfl

theorem restart_rows (n : Nat) (u : List α) (t : List (List α)) (hn : n ≤ t.length)
    (hu : n ≤ u.length) :
    ∃ r, forLoop n
        (fun j t =>
          match vec_get u j with
          | Except.error e => Except.error e
          | Except.ok uj => vec_modify t j (fun s => Except.ok (s ++ [uj])))
        t = Except.ok r ∧
      r.length = t.length ∧
      ∀ j, r[j]? = if j < n then (t[j]?).map (fun s => s ++ (u[j]?).toList) else t[j]? := by
  apply forLoop_rows _ (fun j s => s ++ (u[j]?).toList) t n hn
  intro j x t' hj _ hx'
  have hju : j < u.length := Nat.lt_of_lt_of_le hj hu
  have e1 : vec_get u j = Except.ok u[j] := vec_get_some (List.getElem?_eq_getElem hju)
  simp only [e1, List.getElem?_eq_getElem hju, Option.toList]
  exact vec_modify_some hx' rfl

/-- A loop that has failed stays failed however many more iterations are asked for. -/
theorem forLoop_error {σ : Type} (body : Nat → σ → Except Fault σ) (s : σ) (e : Fault)
    (k : Nat) (h : forLoop k body s = Except.error e) :
    ∀ n, k ≤ n → forLoop n body s = Except.error e := by
  intro n hn
  induction n with
  | zero =>
    have : k = 0 := Nat.le_zero.mp hn
    subst this
    exact h
  | succ n ih =>
    by_cases hk : k = n + 1
    · subst hk; exact h
    · have := ih (by omega)
      simp [forLoop, this]

/-- A table cleared on all its rows is a table of empty rows. -/
theorem cleared_eq_replicate (t r : List (List α))
    (hget : ∀ j, r[j]? = if j < t.length then (t[j]?).map (fun _ => []) else t[j]?) :
    r = List.replicate t.length [] := by
  apply List.ext_getElem?
  intro j
  rw [hget j, List.getElem?_replicate]
  by_cases hj : j < t.length
  · simp [hj, List.getElem?_eq_getElem hj]
  · simp [hj, List.getElem?_eq_none (Nat.le_of_not_lt hj)]

/-! ### Lengths are kept by every loop over the rows -/

theorem vec_modify_length {β : Type} {v r : List β} {i : Nat} {f : β → Except Fault β}
    (h : vec_modify v i f = Except.ok r) : r.length = v.length := by
  obtain ⟨_, _, _, _, rfl⟩ := vec_modify_ok h
  simp

theorem forLoop_length {β : Type} (body : Nat → List β → Except Fault (List β))
    (hbody : ∀ j t r, body j t = Except.ok r → r.length = t.length)
    (n : Nat) (t r : List β) (h : forLoop n body t = Except.ok r) : r.length = t.length :=
  forLoop_keeps (fun s => s.length = t.length) body
    (fun j s s' hs hb => (hbody j s s' hb).trans hs) n t r rfl h

theorem add_to_entry_ok [Add α] [Mul α] {t r : List (List α)} {j n i : Nat} {c : List α}
    {m : List (List α)} (h : add_to_entry t j n c m i = Except.ok r) :
    ∃ s y, t[j]? = some s ∧ n < s.length ∧ r = t.set j (s.set n y) := by
  unfold add_to_entry at h
  split at h
  · simp at h
  · split at h
    · simp at h
    · split at h
      · simp at h
      · obtain ⟨s, s', hs, hs', rfl⟩ := vec_modify_ok h
        obtain ⟨a, y, ha, _, rfl⟩ := vec_modify_ok hs'
        exact ⟨s, y, hs, (List.getElem?_eq_some.mp ha).1, rfl⟩

/-- Setting one entry of one row keeps the lengths of all the rows. -/
theorem map_length_set_set (t : List (List α)) (j n : Nat) (s : List α) (y : α)
    (hs : t[j]? = some s) : (t.set j (s.set n y)).map List.length = t.map List.length := by
  apply List.ext_getElem?
  intro k
  rw [List.getElem?_map, List.getElem?_map, List.getElem?_set]
  by_cases hk : j = k
  · subst hk
    have hlt := (List.getElem?_eq_some.mp hs).1
    simp [hlt, hs]
  · simp [hk]

theorem accumulate_lengths [Add α] [Mul α] {ndof n at_ : Nat} {c : List α} {m t r : List (List α)}
    (h : accumulate ndof n at_ c m t = Except.ok r) :
    r.map List.length = t.map List.length := by
  unfold accumulate at h
  refine forLoop_keeps (fun s => s.map List.length = t.map List.length) _ ?_ ndof t r rfl h
  intro i s s' hs hb
  refine forLoop_keeps (fun x => x.map List.length = t.map List.length) _ ?_ n s s' hs hb
  intro j x x' hx hx'
  obtain ⟨row, y, hrow, _, rfl⟩ := add_to_entry_ok hx'
  rw [map_length_set_set x j at_ row y hrow]
  exact hx

theorem length_of_map_length {a b : List (List α)}
    (h : a.map List.length = b.map List.length) : a.length = b.length := by
  have := congrArg List.length h
  simpa using this

/-! ### Construction -/

theorem fill_matrix_lengths [Zero α] {rows ndof : Nat} {basis : Nat → Nat → α} {m : List (List α)}
    (h : fill_matrix rows ndof basis = Except.ok m) :
    m.map List.length = List.replicate rows ndof := by
  unfold fill_matrix at h
  have key : m.map List.length
      = (List.replicate rows (List.replicate ndof (0 : α))).map List.length := by
    refine forLoop_keeps
      (fun s => s.map List.length
        = (List.replicate rows (List.replicate ndof (0 : α))).map List.length) _ ?_ ndof _ m rfl h
    intro i s s' hs hb
    refine forLoop_keeps
      (fun s => s.map List.length
        = (List.replicate rows (List.replicate ndof (0 : α))).map List.length) _ ?_ rows s s' hs hb
    intro j t t' ht hb'
    obtain ⟨row, row', hrow, hrow', rfl⟩ := vec_modify_ok hb'
    obtain ⟨_, y, _, _, rfl⟩ := vec_modify_ok hrow'
    rw [map_length_set_set t j i row y hrow]
    exact ht
  simpa using key

theorem lengths_replicate {m : List (List α)} {rows ndof : Nat}
    (h : m.map List.length = List.replicate rows ndof) :
    m.length = rows ∧ ∀ row ∈ m, row.length = ndof := by
  constructor
  · have := congrArg List.length h
    simpa using this
  · intro row hrow
    have hmem : row.length ∈ m.map List.length := List.mem_map_of_mem _ hrow
    rw [h] at hmem
    exact (List.mem_replicate.mp hmem).2

/-- What the constructor returns when it returns. -/
theorem construct_ok [Zero α] {x : List α} {V : FunctionSpace α} {p : GradProbe α}
    (h : construct x V = Except.ok p) :
    Shaped p ∧ p._element = V.element ∧ p._geom_dim = V.dim ∧
      p._value_size_loc = compute_value_size V.element ∧
      p._probes = List.replicate p._value_size_loc [] ∧
      p._probes_grad = List.replicate (p._value_size_loc * p._geom_dim) [] ∧
      p._num_evals = 0 ∧ p._num_grad_evals = 0 := by
  unfold construct at h
  simp only [] at h
  split at h
  · simp at h
  · split at h
    · split at h
      · simp at h
      · split at h
        · simp at h
        · split at h
          · simp at h
          · rename_i bm hbm _ bgm hbgm
            simp only [Except.ok.injEq] at h
            subst h
            have h1 := lengths_replicate (fill_matrix_lengths hbm)
            have h2 := lengths_replicate (fill_matrix_lengths hbgm)
            refine ⟨⟨by simp, by simp, h1.1, h1.2, h2.1, h2.2⟩, rfl, rfl, rfl, rfl, rfl, rfl, rfl⟩
    · simp at h

/-! ### What every call keeps -/

theorem make_room_length [Zero α] {n : Nat} {t r : List (List α)}
    (h : make_room n t = Except.ok r) : r.length = t.length :=
  forLoop_length _ (fun _ _ _ hb => vec_modify_length hb) n t r h

theorem step_lengths [Zero α] [Add α] [Mul α]
    {p q : GradProbe α} {c : Call α} (h : step p c = Except.ok q) :
    q._probes.length = p._probes.length ∧ q._probes_grad.length = p._probes_grad.length := by
  cases c with
  | eval u =>
    obtain ⟨t0, t1, h0, h1, rfl⟩ := eval_ok h
    exact ⟨(length_of_map_length (accumulate_lengths h1)).trans (make_room_length h0), rfl⟩
  | eval_grad u =>
    obtain ⟨t0, t1, g0, g1, h0, h1, h2, h3, rfl⟩ := eval_grad_ok h
    exact ⟨(length_of_map_length (accumulate_lengths h1)).trans (make_room_length h0),
      (length_of_map_length (accumulate_lengths h3)).trans (make_room_length h2)⟩
  | erase_snapshot i =>
    obtain ⟨t, ht, rfl⟩ := erase_snapshot_ok h
    exact ⟨forLoop_length _ (fun _ _ _ hb => vec_modify_length hb) _ _ _ ht, rfl⟩
  | clear =>
    obtain ⟨t, ht, rfl⟩ := clear_ok h
    exact ⟨forLoop_length _ (fun _ _ _ hb => vec_modify_length hb) _ _ _ ht, rfl⟩
  | clear_grad =>
    obtain ⟨t, ht, rfl⟩ := clear_grad_ok h
    exact ⟨rfl, forLoop_length _ (fun _ _ _ hb => vec_modify_length hb) _ _ _ ht⟩
  | restart_probe u =>
    obtain ⟨t, ht, rfl⟩ := restart_probe_ok h
    refine ⟨forLoop_length _ ?_ _ _ _ ht, rfl⟩
    intro j t r hb
    split at hb
    · simp at hb
    · exact vec_modify_length hb
  | restart_probe_num_evals u n => simp [step, restart_probe_num_evals] at h
  | get_probe_sub i => rw [retrieved_ok h]; simp
  | get_probe_grad_sub i => rw [retrieved_ok h]; simp
  | get_probe_at_snapshot i => rw [retrieved_ok h]; simp
  | get_probe_grad_at_snapshot i => rw [retrieved_ok h]; simp
  | get_probe_component_and_snapshot c i => rw [retrieved_ok h]; simp
  | get_probe_grad_component_and_snapshot c i => rw [retrieved_ok h]; simp
  | coordinates => simp only [step, Except.ok.injEq] at h; subst h; simp
  | value_size => simp only [step, Except.ok.injEq] at h; subst h; simp
  | number_of_evaluations => simp only [step, Except.ok.injEq] at h; subst h; simp

theorem step_shaped [Zero α] [Add α] [Mul α] {p q : GradProbe α} {c : Call α} (hs : Shaped p)
    (h : step p c = Except.ok q) : Shaped q := by
  obtain ⟨f1, f2, _, _, f5, f6, f7, _⟩ := step_frame h
  obtain ⟨l1, l2⟩ := step_lengths h
  exact ⟨by rw [l1, f6]; exact hs.probes, by rw [l2, f6, f7]; exact hs.probes_grad,
    by rw [f1, f6]; exact hs.basis, by rw [f1, f5]; exact hs.basis_row,
    by rw [f2, f6, f7]; exact hs.basis_grad, by rw [f2, f5]; exact hs.basis_grad_row⟩

/-! ### Runs, call by call -/

theorem clear_result (p : GradProbe α) (h : p._probes.length = p._value_size_loc) :
    p.clear = Except.ok
      { p with _probes := List.replicate p._value_size_loc [], _num_evals := 0 } := by
  obtain ⟨r, hr, _, hget⟩ := clear_rows p._value_size_loc p._probes (Nat.le_of_eq h.symm)
  rw [← h] at hget
  have hrep := cleared_eq_replicate p._probes r hget
  rw [h] at hrep
  subst hrep
  simp [clear, hr]

theorem erase_snapshot_result (p : GradProbe α) (i : Nat)
    (h : p._probes.length = p._value_size_loc) (hi : ∀ s ∈ p._probes, i < s.length) :
    ∃ t : List (List α), p.erase_snapshot i = Except.ok
        { p with
          _probes := t
          _num_evals := if p._num_evals = 0 then SIZE_MAX else p._num_evals - 1 } ∧
      t.length = p._value_size_loc ∧
      ∀ j : Nat, t[j]? = (p._probes[j]?).map (fun s => List.eraseIdx s i) := by
  obtain ⟨r, hr, hlen, hget⟩ :=
    erase_rows p._value_size_loc i p._probes (Nat.le_of_eq h.symm)
      (fun j x _ hx => hi x (List.mem_iff_getElem?.mpr ⟨j, hx⟩))
  refine ⟨r, by simp [erase_snapshot, hr], hlen.trans h, ?_⟩
  intro j
  rw [hget j]
  by_cases hj : j < p._value_size_loc
  · simp [hj]
  · simp [hj, List.getElem?_eq_none (show p._probes.length ≤ j by omega)]

theorem restart_probe_result (p : GradProbe α) (u : List α)
    (h : p._probes.length = p._value_size_loc) (hu : p._value_size_loc ≤ u.length) :
    ∃ t : List (List α), p.restart_probe u = Except.ok { p with _probes := t } ∧
      t.length = p._value_size_loc ∧
      ∀ j : Nat, t[j]? = (p._probes[j]?).map (fun s => s ++ (u[j]?).toList) := by
  obtain ⟨r, hr, hlen, hget⟩ :=
    restart_rows p._value_size_loc u p._probes (Nat.le_of_eq h.symm) hu
  refine ⟨r, ?_, hlen.trans h, ?_⟩
  · unfold restart_probe
    rw [hr]
  · intro j
    rw [hget j]
    by_cases hj : j < p._value_size_loc
    · simp [hj]
    · simp [hj, List.getElem?_eq_none (show p._probes.length ≤ j by omega)]

theorem restart_probe_short (p : GradProbe α) (u : List α)
    (h : p._probes.length = p._value_size_loc) (hu : u.length < p._value_size_loc) :
    p.restart_probe u = Except.error Fault.out_of_bounds := by
  obtain ⟨r, hr, _, _⟩ :=
    restart_rows u.length u p._probes (by omega) (Nat.le_refl _)
  have hfail := forLoop_succ u.length _ p._probes r hr
  simp only [vec_get_none (Nat.le_refl u.length)] at hfail
  have := forLoop_error _ p._probes Fault.out_of_bounds (u.length + 1) hfail
    p._value_size_loc hu
  unfold restart_probe
  rw [this]

/-! ### The two tables under every call -/

/-- After making room and accumulating, every series is one entry longer. -/
theorem pushed_counted [Zero α] [Add α] [Mul α]
    {ndof n at_ k : Nat} {c : List α} {m t t0 t1 : List (List α)}
    (ht : t.length = n) (h0 : make_room n t = Except.ok t0)
    (h1 : accumulate ndof n at_ c m t0 = Except.ok t1)
    (hcount : ∀ s ∈ t, s.length = k) : ∀ s ∈ t1, s.length = k + 1 := by
  obtain ⟨r, hr, _, hget⟩ := make_room_rows n t (Nat.le_of_eq ht.symm)
  rw [h0, Except.ok.injEq] at hr
  subst hr
  have hlens := accumulate_lengths h1
  intro s hsmem
  have hmem : s.length ∈ t1.map List.length := List.mem_map_of_mem _ hsmem
  rw [hlens] at hmem
  obtain ⟨s0, hs0, hs0len⟩ := List.mem_map.mp hmem
  obtain ⟨j, hj⟩ := List.mem_iff_getElem?.mp hs0
  have hjlt : j < n := by
    have := (List.getElem?_eq_some.mp hj).1
    rw [make_room_length h0, ht] at this
    exact this
  rw [hget j] at hj
  simp only [hjlt, if_true] at hj
  cases hy : t[j]? with
  | none => simp [hy] at hj
  | some y =>
    simp only [hy, Option.map_some', Option.some.injEq] at hj
    rw [← hs0len, ← hj, List.length_append, hcount y (List.mem_iff_getElem?.mpr ⟨j, hy⟩)]
    rfl

/-- Incrementing the counter that holds `len` gives the counter that holds `len + 1`. -/
theorem succ_wraps (len : Nat) :
    (len % (SIZE_MAX + 1) + 1) % (SIZE_MAX + 1) = (len + 1) % (SIZE_MAX + 1) :=
  Nat.mod_add_mod len (SIZE_MAX + 1) 1

/-- Every call that returns keeps the gradient series at one common length, which
`_num_grad_evals` holds as a `std::size_t`; the length grows by one at most. -/
theorem step_grads_counted [Zero α] [Add α] [Mul α] {p q : GradProbe α} {c : Call α}
    (hs : Shaped p) (glen : Nat) (hg : GradsCountedTo p glen)
    (h : step p c = Except.ok q) :
    ∃ glen', GradsCountedTo q glen' ∧ glen' ≤ glen + 1 := by
  have hkeep : ∃ glen', GradsCountedTo p glen' ∧ glen' ≤ glen + 1 :=
    ⟨glen, hg, Nat.le_succ glen⟩
  cases c with
  | eval u => obtain ⟨_, _, _, _, rfl⟩ := eval_ok h; exact hkeep
  | eval_grad u =>
    obtain ⟨t0, t1, g0, g1, _, _, h2, h3, rfl⟩ := eval_grad_ok h
    refine ⟨glen + 1, ⟨pushed_counted hs.probes_grad h2 h3 hg.1, ?_⟩, Nat.le_refl _⟩
    show (p._num_grad_evals + 1) % (SIZE_MAX + 1) = (glen + 1) % (SIZE_MAX + 1)
    rw [hg.2]
    exact succ_wraps glen
  | erase_snapshot i => obtain ⟨_, _, rfl⟩ := erase_snapshot_ok h; exact hkeep
  | clear => obtain ⟨_, _, rfl⟩ := clear_ok h; exact hkeep
  | clear_grad =>
    obtain ⟨t, ht, rfl⟩ := clear_grad_ok h
    obtain ⟨r, hr, _, hget⟩ :=
      clear_rows (p._value_size_loc * p._geom_dim) p._probes_grad
        (Nat.le_of_eq hs.probes_grad.symm)
    rw [ht, Except.ok.injEq] at hr
    subst hr
    rw [← hs.probes_grad] at hget
    have := cleared_eq_replicate p._probes_grad t hget
    refine ⟨0, ⟨?_, rfl⟩, Nat.zero_le _⟩
    intro s hsmem
    have hsmem' : s ∈ t := hsmem
    rw [this] at hsmem'
    rw [(List.mem_replicate.mp hsmem').2]
    rfl
  | restart_probe u => obtain ⟨_, _, rfl⟩ := restart_probe_ok h; exact hkeep
  | restart_probe_num_evals u n => simp [step, restart_probe_num_evals] at h
  | get_probe_sub i => rw [retrieved_ok h]; exact hkeep
  | get_probe_grad_sub i => rw [retrieved_ok h]; exact hkeep
  | get_probe_at_snapshot i => rw [retrieved_ok h]; exact hkeep
  | get_probe_grad_at_snapshot i => rw [retrieved_ok h]; exact hkeep
  | get_probe_component_and_snapshot c i => rw [retrieved_ok h]; exact hkeep
  | get_probe_grad_component_and_snapshot c i => rw [retrieved_ok h]; exact hkeep
  | coordinates => simp only [step, Except.ok.injEq] at h; subst h; exact hkeep
  | value_size => simp only [step, Except.ok.injEq] at h; subst h; exact hkeep
  | number_of_evaluations =>
    simp only [step, Except.ok.injEq] at h; subst h; exact hkeep

/-- The calls that the code makes move `_num_evals` with the value series, all but
`restart_probe`: each of the others, `erase_snapshot` being given an index below
`_num_evals` and the counter being below `SIZE_MAX`, keeps every value series at
`_num_evals` entries. -/
theorem step_values_counted [Zero α] [Add α] [Mul α]
    {p q : GradProbe α} {c : Call α} (hs : Shaped p)
    (hv : ValuesCounted p) (hroom : p._num_evals < SIZE_MAX)
    (h : step p c = Except.ok q)
    (hrestart : ∀ u, c ≠ Call.restart_probe u)
    (herase : ∀ i, c = Call.erase_snapshot i → i < p._num_evals) : ValuesCounted q := by
  have hsucc : (p._num_evals + 1) % (SIZE_MAX + 1) = p._num_evals + 1 :=
    Nat.mod_eq_of_lt (by omega)
  cases c with
  | eval u =>
    obtain ⟨t0, t1, h0, h1, rfl⟩ := eval_ok h
    intro s hsmem
    show s.length = (p._num_evals + 1) % (SIZE_MAX + 1)
    rw [hsucc]
    exact pushed_counted hs.probes h0 h1 hv s hsmem
  | eval_grad u =>
    obtain ⟨t0, t1, g0, g1, h0, h1, _, _, rfl⟩ := eval_grad_ok h
    intro s hsmem
    show s.length = (p._num_evals + 1) % (SIZE_MAX + 1)
    rw [hsucc]
    exact pushed_counted hs.probes h0 h1 hv s hsmem
  | erase_snapshot i =>
    have hi : i < p._num_evals := herase i rfl
    obtain ⟨t, h', _, hget⟩ :=
      erase_snapshot_result p i hs.probes (fun s hmem => by rw [hv s hmem]; exact hi)
    have hq : step p (Call.erase_snapshot i) = p.erase_snapshot i := rfl
    rw [hq, h', Except.ok.injEq] at h
    subst h
    intro s hsmem
    have hne : p._num_evals ≠ 0 := by omega
    show s.length = if p._num_evals = 0 then SIZE_MAX else p._num_evals - 1
    simp only [hne, if_false]
    obtain ⟨j, hj⟩ := List.mem_iff_getElem?.mp hsmem
    have hj' : t[j]? = some s := hj
    rw [hget j] at hj'
    cases hy : p._probes[j]? with
    | none => simp [hy] at hj'
    | some y =>
      simp only [hy, Option.map_some', Option.some.injEq] at hj'
      have hyl : y.length = p._num_evals := hv y (List.mem_iff_getElem?.mpr ⟨j, hy⟩)
      rw [← hj', List.length_eraseIdx, hyl]
      simp [hi]
  | clear =>
    have hq : step p Call.clear = p.clear := rfl
    rw [hq, clear_result p hs.probes, Except.ok.injEq] at h
    subst h
    intro s hsmem
    have hsmem' : s ∈ List.replicate p._value_size_loc ([] : List α) := hsmem
    rw [(List.mem_replicate.mp hsmem').2]
    rfl
  | clear_grad => obtain ⟨_, _, rfl⟩ := clear_grad_ok h; exact hv
  | restart_probe u => exact absurd rfl (hrestart u)
  | restart_probe_num_evals u n => simp [step, restart_probe_num_evals] at h
  | get_probe_sub i => rw [retrieved_ok h]; exact hv
  | get_probe_grad_sub i => rw [retrieved_ok h]; exact hv
  | get_probe_at_snapshot i => rw [retrieved_ok h]; exact hv
  | get_probe_grad_at_snapshot i => rw [retrieved_ok h]; exact hv
  | get_probe_component_and_snapshot c i => rw [retrieved_ok h]; exact hv
  | get_probe_grad_component_and_snapshot c i => rw [retrieved_ok h]; exact hv
  | coordinates => simp only [step, Except.ok.injEq] at h; subst h; exact hv
  | value_size => simp only [step, Except.ok.injEq] at h; subst h; exact hv
  | number_of_evaluations => simp only [step, Except.ok.injEq] at h; subst h; exact hv

theorem run_grads_counted [Zero α] [Add α] [Mul α] (cs : List (Call α)) :
    ∀ (p q : GradProbe α) (glen : Nat), Shaped p → GradsCountedTo p glen →
    run p cs = Except.ok q →
    Shaped q ∧ ∃ glen', GradsCountedTo q glen' ∧ glen' ≤ glen + cs.length := by
  induction cs with
  | nil =>
    intro p q glen hs hg h
    simp only [run, Except.ok.injEq] at h
    subst h
    exact ⟨hs, glen, hg, Nat.le_refl _⟩
  | cons c cs ih =>
    intro p q glen hs hg h
    simp only [run] at h
    cases hc : step p c with
    | error e => simp [hc] at h
    | ok r =>
      simp only [hc] at h
      obtain ⟨glen1, hg1, hle1⟩ := step_grads_counted hs glen hg hc
      obtain ⟨qs, glen2, hg2, hle2⟩ := ih r q glen1 (step_shaped hs hc) hg1 h
      refine ⟨qs, glen2, hg2, ?_⟩
      rw [List.length_cons]
      omega

/-! ### Long runs on the probe without components -/

/-- Where addition is associative and commutative, `sum_to` is the sum over the range. -/
theorem sum_to_eq_sum {β : Type} [AddCommMonoid β] (f : Nat → β) (n : Nat) :
    sum_to f n = ∑ i ∈ Finset.range n, f i := by
  induction n with
  | zero => simp [sum_to]
  | succ n ih => simp [sum_to, ih, Finset.sum_range_succ]

/-! ### The loops of the constructor -/

/-- A loop fails when one of its iterations fails after the earlier ones returned. -/
theorem forLoop_fails_at {σ : Type} (body : Nat → σ → Except Fault σ) (s t : σ)
    (e : Fault) (k n : Nat) (hk : forLoop k body s = Except.ok t)
    (hb : body k t = Except.error e) (hn : k < n) :
    forLoop n body s = Except.error e := by
  have h1 : forLoop (k + 1) body s = Except.error e := by
    rw [forLoop_succ k body s t hk]; exact hb
  exact forLoop_error body s e (k + 1) h1 n hn

theorem point_take (x : List α) : ∀ (gdim : Nat), gdim ≤ x.length →
    point gdim x = Except.ok (x.take gdim) := by
  intro gdim
  induction gdim with
  | zero => intro _; rfl
  | succ k ih =>
    intro hk
    have hk' : k < x.length := hk
    have h := ih (Nat.le_of_succ_le hk)
    unfold point at h ⊢
    rw [forLoop_succ k _ [] _ h]
    simp only [vec_get_some (List.getElem?_eq_getElem hk')]
    rw [List.take_succ, List.getElem?_eq_getElem hk']
    rfl

theorem point_short (x : List α) (gdim : Nat) (h : x.length < gdim) :
    point gdim x = Except.error Fault.out_of_bounds := by
  have hk := point_take x x.length (Nat.le_refl _)
  unfold point at hk ⊢
  apply forLoop_fails_at _ [] _ Fault.out_of_bounds x.length gdim hk _ h
  simp only [vec_get_none (Nat.le_refl x.length)]

theorem store_position_rows [Zero α] (gdim : Nat) (x : List α) (hx : gdim ≤ x.length) :
    ∃ r, store_position gdim x = Except.ok r ∧ r.length = 3 ∧
      ∀ i : Nat, i < 3 → r[i]? = some (if i < gdim then x.getD i 0 else 0) := by
  obtain ⟨r, hr, hlen, hget⟩ :=
    forLoop_rows
      (fun i v =>
        if i < gdim then
          match vec_get x i with
          | Except.error e => Except.error e
          | Except.ok xi => vec_modify v i (fun _ => Except.ok xi)
        else vec_modify v i (fun _ => Except.ok (0 : α)))
      (fun i _ => if i < gdim then x.getD i 0 else 0)
      (List.replicate 3 (0 : α)) 3 (by simp)
      (by
        intro i y t' _ _ hy'
        by_cases hi : i < gdim
        · have hix : i < x.length := Nat.lt_of_lt_of_le hi hx
          have e1 : vec_get x i = Except.ok (x.getD i 0) := by
            apply vec_get_some
            simp [List.getD_eq_getElem?_getD, List.getElem?_eq_getElem hix]
          simp only [hi, if_true, e1]
          exact vec_modify_some hy' rfl
        · simp only [hi, if_false]
          exact vec_modify_some hy' rfl)
  refine ⟨r, hr, by simpa using hlen, ?_⟩
  intro i hi
  rw [hget i]
  simp [hi, List.getElem?_replicate]

/-- One pass of the inner loop of `fill_matrix`: the column `i` of every row is set. -/
theorem fill_column_rows (rows i : Nat) (v : Nat → α) (m : List (List α))
    (hm : rows ≤ m.length) (hrow : ∀ j row, j < rows → m[j]? = some row → i < row.length) :
    ∃ r, forLoop rows
        (fun j m => vec_modify m j (fun row => vec_modify row i (fun _ => Except.ok (v j))))
        m = Except.ok r ∧
      r.length = m.length ∧
      ∀ j, r[j]? = if j < rows then (m[j]?).map (fun row => row.set i (v j)) else m[j]? := by
  apply forLoop_rows _ (fun j row => row.set i (v j)) m rows hm
  intro j row t' hj hrow' ht'
  have hi : i < row.length := hrow j row hj hrow'
  exact vec_modify_some ht' (vec_modify_some (List.getElem?_eq_getElem hi) rfl)

/-- The table that `fill_matrix` returns: `rows` rows of `ndof` entries, the entry `i`
of the row `j` being `basis i j`. -/
theorem fill_matrix_entries [Zero α] (rows ndof : Nat) (basis : Nat → Nat → α) :
    ∃ m, fill_matrix rows ndof basis = Except.ok m ∧ m.length = rows ∧
      ∀ j : Nat, j < rows → ∃ row, m[j]? = some row ∧ row.length = ndof ∧
        ∀ i : Nat, i < ndof → row[i]? = some (basis i j) := by
  have key : ∀ k : Nat, k ≤ ndof →
      ∃ m, forLoop k
          (fun i m =>
            forLoop rows
              (fun j m =>
                vec_modify m j (fun row => vec_modify row i (fun _ => Except.ok (basis i j))))
              m)
          (List.replicate rows (List.replicate ndof (0 : α))) = Except.ok m ∧
        m.length = rows ∧
        ∀ j : Nat, j < rows → ∃ row, m[j]? = some row ∧ row.length = ndof ∧
          ∀ i : Nat, i < ndof → row[i]? = some (if i < k then basis i j else 0) := by
    intro k
    induction k with
    | zero =>
      intro _
      refine ⟨_, rfl, by simp, ?_⟩
      intro j hj
      refine ⟨List.replicate ndof 0, by simp [List.getElem?_replicate, hj], by simp, ?_⟩
      intro i hi
      simp [List.getElem?_replicate, hi]
    | succ k ih =>
      intro hk
      obtain ⟨m, hm, hlen, hrows⟩ := ih (Nat.le_of_succ_le hk)
      obtain ⟨r, hr, hrlen, hrget⟩ :=
        fill_column_rows rows k (fun j => basis k j) m (Nat.le_of_eq hlen.symm)
          (by
            intro j row hj hrow
            obtain ⟨row', hrow', hl, _⟩ := hrows j hj
            rw [hrow] at hrow'
            rw [Option.some.inj hrow', hl]
            exact hk)
      refine ⟨r, ?_, hrlen.trans hlen, ?_⟩
      · rw [forLoop_succ k _ _ m hm]
        exact hr
      · intro j hj
        obtain ⟨row, hrow, hl, hent⟩ := hrows j hj
        refine ⟨row.set k (basis k j), ?_, by simp [hl], ?_⟩
        · rw [hrget j]
          simp [hj, hrow]
        · intro i hi
          rw [List.getElem?_set]
          by_cases hik : k = i
          · subst hik
            simp [hl, hi]
          · have h1 : (i < k + 1) = (i < k) := by
              apply propext; constructor <;> intro h <;> omega
            simp only [hik, if_false, h1]
            exact hent i hi
  obtain ⟨m, hm, hlen, hrows⟩ := key ndof (Nat.le_refl _)
  refine ⟨m, hm, hlen, ?_⟩
  intro j hj
  obtain ⟨row, hrow, hl, hent⟩ := hrows j hj
  refine ⟨row, hrow, hl, ?_⟩
  intro i hi
  rw [hent i hi]
  simp [hi]

/-- The constructor on a point with a coordinate for every direction of the mesh, when
the bounding box tree finds a cell. -/
theorem construct_found [Zero α] (x : List α) (V : FunctionSpace α)
    (hx : V.dim ≤ x.length)
    (hcell : V.compute_first_entity_collision (x.take V.dim) ≠ UINT_MAX) :
    ∃ pos bm bgm,
      store_position V.dim x = Except.ok pos ∧
      fill_matrix (compute_value_size V.element) V.element.space_dimension
        (fun i j => V.element.evaluate_basis i x
          (V.get_vertex_coordinates (V.compute_first_entity_collision (x.take V.dim))) j)
        = Except.ok bm ∧
      fill_matrix (compute_value_size V.element * V.dim) V.element.space_dimension
        (fun i j => V.element.evaluate_basis_derivatives i x
          (V.get_vertex_coordinates (V.compute_first_entity_collision (x.take V.dim))) j)
        = Except.ok bgm ∧
      construct x V = Except.ok
        { basis_matrix := bm
          basis_grad_matrix := bgm
          coefficients := List.replicate V.element.space_dimension 0
          vertex_coordinates :=
            V.get_vertex_coordinates (V.compute_first_entity_collision (x.take V.dim))
          _x := pos
          _element := V.element
          _value_size_loc := compute_value_size V.element
          _num_evals := 0
          _num_grad_evals := 0
          _geom_dim := V.dim
          _probes := List.replicate (compute_value_size V.element) []
          _probes_grad := List.replicate (compute_value_size V.element * V.dim) []
          cell_index := V.compute_first_entity_collision (x.take V.dim) } := by
  obtain ⟨pos, hpos, _, _⟩ := store_position_rows V.dim x hx
  obtain ⟨bm, hbm, _, _⟩ :=
    fill_matrix_entries (compute_value_size V.element) V.element.space_dimension
      (fun i j => V.element.evaluate_basis i x
        (V.get_vertex_coordinates (V.compute_first_entity_collision (x.take V.dim))) j)
  obtain ⟨bgm, hbgm, _, _⟩ :=
    fill_matrix_entries (compute_value_size V.element * V.dim) V.element.space_dimension
      (fun i j => V.element.evaluate_basis_derivatives i x
        (V.get_vertex_coordinates (V.compute_first_entity_collision (x.take V.dim))) j)
  refine ⟨pos, bm, bgm, hpos, hbm, hbgm, ?_⟩
  unfold construct
  simp only [point_take x V.dim hx, hcell, ne_eq, not_false_eq_true, if_true, hpos, hbm, hbgm]

/-- The constructor when the bounding box tree finds no cell on this process. -/
theorem construct_not_found [Zero α] (x : List α) (V : FunctionSpace α)
    (hx : V.dim ≤ x.length)
    (hcell : V.compute_first_entity_collision (x.take V.dim) = UINT_MAX) :
    construct x V = Except.error Fault.dolfin_error := by
  unfold construct
  simp only [point_take x V.dim hx, hcell, ne_eq, not_true_eq_false, if_false]

/-- The constructor on an array with fewer entries than the mesh has directions. -/
theorem construct_short [Zero α] (x : List α) (V : FunctionSpace α)
    (hx : x.length < V.dim) : construct x V = Except.error Fault.out_of_bounds := by
  unfold construct
  simp only [point_short x V.dim hx]

/-! ### Retrieval -/

theorem column_entries [Zero α] (n i : Nat) (t : List (List α))
    (ht : ∀ j : Nat, j < n → ∃ s, t[j]? = some s ∧ i < s.length) :
    ∃ r, column n t i = Except.ok r ∧ r.length = n ∧
      ∀ j : Nat, j < n → r[j]? = some (entry t j i) := by
  obtain ⟨r, hr, hlen, hget⟩ :=
    forLoop_rows
      (fun j x =>
        match vec_get t j with
        | Except.error e => Except.error e
        | Except.ok s =>
          match vec_get s i with
          | Except.error e => Except.error e
          | Except.ok v => vec_modify x j (fun _ => Except.ok v))
      (fun j _ => entry t j i) (List.replicate n (0 : α)) n (by simp)
      (by
        intro j y x' hj _ hy'
        obtain ⟨s, hs, hi⟩ := ht j hj
        have e1 : vec_get t j = Except.ok s := vec_get_some hs
        have e2 : vec_get s i = Except.ok (entry t j i) := by
          apply vec_get_some
          simp [entry, List.getD_eq_getElem?_getD, hs, List.getElem?_eq_getElem hi]
        simp only [e1, e2]
        exact vec_modify_some hy' rfl)
  refine ⟨r, hr, by simpa using hlen, ?_⟩
  intro j hj
  rw [hget j]
  simp [hj, List.getElem?_replicate]

/-- The first read of `column` is outside the table or outside its first row. -/
theorem column_fails [Zero α] (n i : Nat) (t : List (List α)) (hn : 0 < n)
    (h0 : ∀ s, t[0]? = some s → s.length ≤ i) :
    column n t i = Except.error Fault.out_of_bounds := by
  unfold column
  apply forLoop_fails_at _ _ (List.replicate n (0 : α)) Fault.out_of_bounds 0 n rfl _ hn
  cases hs : t[0]? with
  | none => simp [vec_get, hs]
  | some s =>
    have e1 : vec_get t 0 = Except.ok s := vec_get_some hs
    simp only [e1, vec_get_none (h0 s hs)]

/-- Reading the entry `s` of a series of a counted table. -/
theorem component_read {t : List (List α)} {n k : Nat} (c s : Nat)
    (ht : t.length = n) (hcount : ∀ x ∈ t, x.length = k) (h : n ≤ c ∨ k ≤ s) :
    (match vec_get t c with
      | Except.error e => Except.error e
      | Except.ok x => vec_get x s) = Except.error Fault.out_of_bounds := by
  by_cases hc : c < n
  · have hct : c < t.length := by omega
    have e1 : vec_get t c = Except.ok t[c] := vec_get_some (List.getElem?_eq_getElem hct)
    have hl : (t[c]).length = k := hcount _ (List.getElem_mem hct)
    have hs : k ≤ s := by omega
    simp only [e1]
    exact vec_get_none (by omega)
  · simp only [vec_get_none (show t.length ≤ c by omega)]

/-! ### Linearity of the weighted sum -/

theorem sum_to_mul_left {β : Type} [Semiring β] (a : β) (f : Nat → β) (n : Nat) :
    sum_to (fun i => a * f i) n = a * sum_to f n := by
  induction n with
  | zero => simp [sum_to]
  | succ n ih => simp [sum_to, ih, mul_add]

theorem sum_to_add {β : Type} [Semiring β] (f g : Nat → β) (n : Nat) :
    sum_to (fun i => f i + g i) n = sum_to f n + sum_to g n := by
  induction n with
  | zero => simp [sum_to]
  | succ n ih => simp only [sum_to, ih]; abel

theorem weighted_sum_scale {β : Type} [Semiring β] (ndof : Nat) (a : β) (u : List β)
    (m : List (List β)) (j : Nat) :
    weighted_sum ndof (u.map (fun ui => a * ui)) m j = a * weighted_sum ndof u m j := by
  unfold weighted_sum
  rw [← sum_to_mul_left]
  congr 1
  funext i
  have : (u.map (fun ui => a * ui)).getD i 0 = a * u.getD i 0 := by
    simp only [List.getD_eq_getElem?_getD, List.getElem?_map]
    cases hui : u[i]? with
    | none => simp
    | some v => simp
  rw [this, mul_assoc]

theorem weighted_sum_add {β : Type} [Semiring β] (ndof : Nat) (u w : List β)
    (m : List (List β)) (j : Nat) (h : u.length = w.length) :
    weighted_sum ndof (List.zipWith (fun ui wi => ui + wi) u w) m j
      = weighted_sum ndof u m j + weighted_sum ndof w m j := by
  unfold weighted_sum
  rw [← sum_to_add]
  congr 1
  funext i
  have : (List.zipWith (fun ui wi => ui + wi) u w).getD i 0 = u.getD i 0 + w.getD i 0 := by
    simp only [List.getD_eq_getElem?_getD]
    by_cases hi : i < u.length
    · have hiw : i < w.length := h ▸ hi
      simp [List.getElem?_zipWith, List.getElem?_eq_getElem hi, List.getElem?_eq_getElem hiw]
    · have hu : u[i]? = none := List.getElem?_eq_none (by omega)
      have hw : w[i]? = none := List.getElem?_eq_none (by omega)
      have hz : (List.zipWith (fun ui wi => ui + wi) u w)[i]? = none :=
        List.getElem?_eq_none (by simp; omega)
      simp [hu, hw, hz]
  rw [this, add_mul]

/-! ### Linearity of `eval` in exact arithmetic -/

/-- In exact arithmetic (a semiring of scalars) `eval` is linear in the
coefficients: for the coefficients `a * u` the value appended to every series is `a`
times the value appended for `u`, and for the coefficients `u + w` it is the sum of the
values appended for `u` and for `w`. -/
theorem eval_linear {β : Type} [Semiring β] (p : GradProbe β) (u w : List β) (a : β)
    (hs : Shaped p) (hv : ValuesCounted p)
    (hu : u.length = p._element.space_dimension)
    (hw : w.length = p._element.space_dimension) :
    ∃ qu qw qau quw, p.eval u = Except.ok qu ∧ p.eval w = Except.ok qw ∧
      p.eval (u.map (fun ui => a * ui)) = Except.ok qau ∧
      p.eval (List.zipWith (fun ui wi => ui + wi) u w) = Except.ok quw ∧
      ∀ j : Nat, j < p._value_size_loc → ∃ s vu vw, p._probes[j]? = some s ∧
        qu._probes[j]? = some (s ++ [vu]) ∧ qw._probes[j]? = some (s ++ [vw]) ∧
        qau._probes[j]? = some (s ++ [a * vu]) ∧
        quw._probes[j]? = some (s ++ [vu + vw]) := by
  have hau : (u.map (fun ui => a * ui)).length = p._element.space_dimension := by
    simpa using hu
  have huw : (List.zipWith (fun ui wi => ui + wi) u w).length
      = p._element.space_dimension := by
    simp [hu, hw]
  obtain ⟨t1, h1, _, g1⟩ := eval_result p u hs hv hu
  obtain ⟨t2, h2, _, g2⟩ := eval_result p w hs hv hw
  obtain ⟨t3, h3, _, g3⟩ := eval_result p _ hs hv hau
  obtain ⟨t4, h4, _, g4⟩ := eval_result p _ hs hv huw
  refine ⟨_, _, _, _, h1, h2, h3, h4, ?_⟩
  intro j hj
  have hjp : j < p._probes.length := by rw [hs.probes]; exact hj
  have hsj := List.getElem?_eq_getElem hjp
  refine ⟨p._probes[j], weighted_sum p._element.space_dimension u p.basis_matrix j,
    weighted_sum p._element.space_dimension w p.basis_matrix j, hsj, ?_, ?_, ?_, ?_⟩
  · show t1[j]? = _
    rw [g1 j, hsj]; rfl
  · show t2[j]? = _
    rw [g2 j, hsj]; rfl
  · show t3[j]? = _
    rw [g3 j, hsj, weighted_sum_scale]; rfl
  · show t4[j]? = _
    rw [g4 j, hsj, weighted_sum_add _ _ _ _ _ (hu.trans hw.symm)]; rfl

/-- On the midpoint probe, over the rationals: the nodal values `[2, 4]` give `3`, their double
`[4, 8]` gives `6`, and `[2, 4] + [1, 1]` gives `3 + 1`. -/
theorem eval_linear_midpoint :
    Shaped midpoint_probe ∧ ValuesCounted midpoint_probe ∧
      ∃ qu qau quw, midpoint_probe.eval [2, 4] = Except.ok qu ∧
        midpoint_probe.eval [4, 8] = Except.ok qau ∧
        midpoint_probe.eval [3, 5] = Except.ok quw ∧
        qu._probes[0]? = some [3] ∧ qau._probes[0]? = some [2 * 3] ∧
        quw._probes[0]? = some [3 + 1] := by
  have hs : Shaped midpoint_probe :=
    ⟨by decide, by decide, by decide, by decide, by decide, by decide⟩
  have hv : ValuesCounted midpoint_probe := by unfold ValuesCounted; decide
  obtain ⟨qu, qw, qau, quw, h1, h2, h3, h4, hj⟩ :=
    eval_linear midpoint_probe [2, 4] [1, 1] 2 hs hv (by decide) (by decide)
  obtain ⟨s, vu, vw, hs0, e1, e2, e3, e4⟩ := hj 0 (by decide)
  have hs' : s = [] := by
    have : midpoint_probe._probes[0]? = some [] := by decide
    rw [this] at hs0
    exact (Option.some.inj hs0).symm
  subst hs'
  obtain ⟨t1, h1', _, g1⟩ := eval_result midpoint_probe [2, 4] hs hv (by decide)
  obtain ⟨t2, h2', _, g2⟩ := eval_result midpoint_probe [1, 1] hs hv (by decide)
  have hvu : vu = 3 := by
    rw [h1', Except.ok.injEq] at h1
    subst h1
    have e1' : t1[0]? = some ([] ++ [vu]) := e1
    rw [g1 0] at e1'
    have : weighted_sum midpoint_probe._element.space_dimension [2, 4]
        midpoint_probe.basis_matrix 0 = (3 : Rat) := by
      norm_num [weighted_sum, sum_to, entry, midpoint_probe, linear_element]
    have hp0 : midpoint_probe._probes[0]? = some [] := by decide
    rw [this, hp0] at e1'
    simp at e1'
    exact e1'.symm
  have hvw : vw = 1 := by
    rw [h2', Except.ok.injEq] at h2
    subst h2
    have e2' : t2[0]? = some ([] ++ [vw]) := e2
    rw [g2 0] at e2'
    have : weighted_sum midpoint_probe._element.space_dimension [1, 1]
        midpoint_probe.basis_matrix 0 = (1 : Rat) := by
      norm_num [weighted_sum, sum_to, entry, midpoint_probe, linear_element]
    have hp0 : midpoint_probe._probes[0]? = some [] := by decide
    rw [this, hp0] at e2'
    simp at e2'
    exact e2'.symm
  subst hvu hvw
  have m1 : ([2, 4] : List Rat).map (fun ui => 2 * ui) = [4, 8] := by norm_num
  have m2 : List.zipWith (fun ui wi => ui + wi) ([2, 4] : List Rat) [1, 1] = [3, 5] := by
    norm_num
  rw [m1] at h3
  rw [m2] at h4
  exact ⟨hs, hv, qu, qau, quw, h1, h3, h4, e1, e3, e4⟩

/-! ## The properties of the specification -/

/-- C4: the value series are not all of length `_num_evals` after `restart_probe`.  On
the freshly constructed sample probe the call appends `7` to the only value series and
leaves `_num_evals` at zero, where `eval`, `eval_grad`, `erase_snapshot` and `clear`
all move the counter with the series. -/
theorem restart_probe_leaves_count :
    construct [5] sample_space = Except.ok sample_probe ∧
      ∃ q, run sample_probe [Call.restart_probe [7]] = Except.ok q ∧
        q._probes = [[7]] ∧ q.number_of_evaluations = 0 ∧ ¬ ValuesCounted q :=
  ⟨rfl, { sample_probe with _probes := [[7]] }, rfl, rfl, rfl,
    by unfold ValuesCounted; decide⟩

/-- C5: in every state reached from a constructed probe by a sequence of calls that all
return, there are `_value_size_loc * _geom_dim` gradient series and `_num_grad_evals`
is the length of each of them as a `std::size_t`, that is the length modulo
`SIZE_MAX + 1`: each gradient series has `_num_grad_evals` entries when it has at most
`SIZE_MAX` entries, as every series has after at most `SIZE_MAX` calls. -/
theorem gradient_series_counted [Zero α] [Add α] [Mul α] (x : List α)
    (V : FunctionSpace α) (p0 q : GradProbe α) (calls : List (Call α))
    (h0 : construct x V = Except.ok p0) (hrun : run p0 calls = Except.ok q) :
    q._probes_grad.length = q.value_size * q._geom_dim ∧
      ∀ k, k < q.value_size * q._geom_dim →
        ∃ g, q._probes_grad[k]? = some g ∧
          q._num_grad_evals = g.length % (SIZE_MAX + 1) ∧
          g.length ≤ calls.length ∧
          (g.length ≤ SIZE_MAX → g.length = q._num_grad_evals) ∧
          (calls.length ≤ SIZE_MAX → g.length = q._num_grad_evals) := by
  obtain ⟨hs, _, _, _, _, hpg, _, hm⟩ := construct_ok h0
  have hg : GradsCountedTo p0 0 := by
    refine ⟨?_, hm⟩
    intro s hmem
    rw [hpg] at hmem
    rw [(List.mem_replicate.mp hmem).2]
    rfl
  obtain ⟨qs, glen, qg, hle⟩ := run_grads_counted calls p0 q 0 hs hg hrun
  rw [Nat.zero_add] at hle
  refine ⟨qs.probes_grad, ?_⟩
  intro k hk
  have hkp : k < q._probes_grad.length := by rw [qs.probes_grad]; exact hk
  have hlen : q._probes_grad[k].length = glen := qg.1 _ (List.getElem_mem hkp)
  have hexact : glen ≤ SIZE_MAX → q._probes_grad[k].length = q._num_grad_evals := by
    intro hb
    rw [hlen]
    exact (qg.2.trans (Nat.mod_eq_of_lt (Nat.lt_succ_of_le hb))).symm
  refine ⟨q._probes_grad[k], List.getElem?_eq_getElem hkp, ?_, ?_, ?_, ?_⟩
  · rw [hlen]; exact qg.2
  · rw [hlen]; exact hle
  · intro hb
    rw [hlen] at hb
    exact hexact hb
  · intro hb
    exact hexact (Nat.le_trans hle hb)

/-- C5, on the sample probe: a run through `eval_grad`, `restart_probe`,
`erase_snapshot`, `clear_grad` and `eval_grad` again. -/
theorem gradient_series_counted_sample :
    construct [5] sample_space = Except.ok sample_probe ∧
      ∃ q, run sample_probe
          [Call.eval_grad [2, 4], Call.restart_probe [7], Call.erase_snapshot 0,
            Call.clear_grad, Call.eval_grad [0, 3]] = Except.ok q ∧
        q._probes_grad = [[3]] ∧ q._num_grad_evals = 1 ∧
        ∀ k, k < q.value_size * q._geom_dim →
          ∃ g, q._probes_grad[k]? = some g ∧ g.length = q._num_grad_evals := by
  have h0 : construct [5] sample_space = Except.ok sample_probe := rfl
  have hrun : run sample_probe
      [Call.eval_grad [2, 4], Call.restart_probe [7], Call.erase_snapshot 0,
        Call.clear_grad, Call.eval_grad [0, 3]]
      = Except.ok
          { sample_probe with
            coefficients := [0, 3]
            _probes := [[13, 0]]
            _probes_grad := [[3]]
            _num_evals := 1
            _num_grad_evals := 1 } := rfl
  refine ⟨h0, _, hrun, rfl, rfl, ?_⟩
  intro k hk
  obtain ⟨g, hg, _, _, _, hexact⟩ :=
    (gradient_series_counted [5] sample_space sample_probe _ _ h0 hrun).2 k hk
  exact ⟨g, hg, hexact (by decide)⟩

/-- C6: on a probe whose value series all have `_num_evals` entries, `erase_snapshot k`
with `k < _num_evals` returns; each value series loses exactly its entry `k` (the
entries before `k` stay, each entry at an index `i > k` moves to `i - 1`), `_num_evals`
decreases by exactly one, and the gradient series and `_num_grad_evals` are as before. -/
theorem erase_snapshot_removes_entry (p : GradProbe α) (k : Nat) (hs : Shaped p)
    (hv : ValuesCounted p) (hk : k < p._num_evals) :
    ∃ q, p.erase_snapshot k = Except.ok q ∧
      q._num_evals + 1 = p._num_evals ∧
      q._probes.length = p._value_size_loc ∧
      (∀ j, j < p._value_size_loc → ∃ s s', p._probes[j]? = some s ∧
        q._probes[j]? = some s' ∧ s'.length + 1 = s.length ∧
        (∀ i, i < k → s'[i]? = s[i]?) ∧ (∀ i, k < i → s'[i - 1]? = s[i]?)) ∧
      q._probes_grad = p._probes_grad ∧ q._num_grad_evals = p._num_grad_evals := by
  obtain ⟨t, h, hlen, hget⟩ :=
    erase_snapshot_result p k hs.probes (fun s hmem => by rw [hv s hmem]; exact hk)
  refine ⟨_, h, ?_, hlen, ?_, rfl, rfl⟩
  · show (if p._num_evals = 0 then SIZE_MAX else p._num_evals - 1) + 1 = p._num_evals
    have : p._num_evals ≠ 0 := by omega
    simp only [this, if_false]
    omega
  · intro j hj
    have hjp : j < p._probes.length := by rw [hs.probes]; exact hj
    have hsl : (p._probes[j]).length = p._num_evals := hv _ (List.getElem_mem hjp)
    refine ⟨p._probes[j], (p._probes[j]).eraseIdx k, List.getElem?_eq_getElem hjp, ?_, ?_,
      ?_, ?_⟩
    · show t[j]? = _
      rw [hget j, List.getElem?_eq_getElem hjp]
      rfl
    · rw [List.length_eraseIdx]
      have : k < (p._probes[j]).length := by omega
      simp only [this, if_true]
      omega
    · intro i hi
      exact List.getElem?_eraseIdx_of_lt _ k i hi
    · intro i hi
      rw [List.getElem?_eraseIdx_of_ge _ k (i - 1) (by omega)]
      congr 1
      omega

/-- C6, on the sample probe after three evaluations: erasing the snapshot `1` of the
series `[10, 3, 6]` leaves `[10, 6]`. -/
theorem erase_snapshot_removes_entry_sample :
    run sample_probe [Call.eval [2, 4], Call.eval [1, 1], Call.eval [0, 3]]
        = Except.ok sample_three ∧
      Shaped sample_three ∧ ValuesCounted sample_three ∧ 1 < sample_three._num_evals ∧
      ∃ q, sample_three.erase_snapshot 1 = Except.ok q ∧
        q._num_evals + 1 = sample_three._num_evals ∧ q._probes = [[10, 6]] := by
  have hs : Shaped sample_three :=
    ⟨by decide, by decide, by decide, by decide, by decide, by decide⟩
  have hv : ValuesCounted sample_three := by unfold ValuesCounted; decide
  obtain ⟨q, hq, hn, _, _⟩ := erase_snapshot_removes_entry sample_three 1 hs hv (by decide)
  refine ⟨rfl, hs, hv, by decide, q, hq, hn, ?_⟩
  have hq' : sample_three.erase_snapshot 1
      = Except.ok { sample_three with _probes := [[10, 6]], _num_evals := 2 } := rfl
  rw [hq', Except.ok.injEq] at hq
  rw [← hq]

/-- C7: after `restart_probe`, the snapshot read at `number_of_evaluations() - 1` is not
the vector given to `restart_probe`.  On the sample probe, after one `eval` that stores
`10`, `restart_probe [7]` leaves the series `[10, 7]` with `_num_evals` still `1`, and the
snapshot at index `1 - 1` is `[10]`. -/
theorem restart_probe_snapshot_is_previous :
    ∃ p q, run sample_probe [Call.eval [2, 4]] = Except.ok p ∧
      p.restart_probe [7] = Except.ok q ∧
      q._probes = [[10, 7]] ∧ q.number_of_evaluations = 1 ∧
      q.get_probe_at_snapshot (q.number_of_evaluations - 1) = Except.ok [10] ∧
      q.get_probe_at_snapshot (q.number_of_evaluations - 1) ≠ Except.ok [7] := by
  refine ⟨{ sample_probe with coefficients := [2, 4], _probes := [[10]], _num_evals := 1 },
    { sample_probe with coefficients := [2, 4], _probes := [[10, 7]], _num_evals := 1 },
    rfl, rfl, rfl, rfl, rfl, ?_⟩
  intro h
  have h2 : (Except.ok [10] : Except Fault (List Int)) = Except.ok [7] := h
  simp at h2

/-- C8, refuted as stated: `restart_probe` makes no check on the length of its argument.
On the sample probe, whose `_value_size_loc` is `1`, the vector `[7, 8]` of length `2` is
accepted: the call returns and the value series has changed. -/
theorem restart_probe_accepts_longer_vector :
    ([7, 8] : List Int).length ≠ sample_probe.value_size ∧
      ∃ q, sample_probe.restart_probe [7, 8] = Except.ok q ∧
        q._probes = [[7]] ∧ q._probes ≠ sample_probe._probes :=
  ⟨by decide, { sample_probe with _probes := [[7]] }, rfl, rfl, by decide⟩

/-- C8, amended: `restart_probe u` returns exactly when `u` has at least
`_value_size_loc` entries, and then appends `u[j]` to the value series `j` for every
`j < _value_size_loc`, whatever follows in `u`; on a shorter `u` it reads `u` outside its
bounds, which is no reported error. -/
theorem restart_probe_needs_value_size_entries (p : GradProbe α) (u : List α)
    (hs : Shaped p) :
    (p._value_size_loc ≤ u.length →
      ∃ q, p.restart_probe u = Except.ok q ∧ q._probes.length = p._value_size_loc ∧
        ∀ j, j < p._value_size_loc → ∃ s uj, p._probes[j]? = some s ∧ u[j]? = some uj ∧
          q._probes[j]? = some (s ++ [uj])) ∧
      (u.length < p._value_size_loc →
        p.restart_probe u = Except.error Fault.out_of_bounds) := by
  constructor
  · intro hu
    obtain ⟨t, h, hlen, hget⟩ := restart_probe_result p u hs.probes hu
    refine ⟨_, h, hlen, ?_⟩
    intro j hj
    have hjp : j < p._probes.length := by rw [hs.probes]; exact hj
    have hju : j < u.length := Nat.lt_of_lt_of_le hj hu
    refine ⟨p._probes[j], u[j], List.getElem?_eq_getElem hjp, List.getElem?_eq_getElem hju,
      ?_⟩
    show t[j]? = _
    rw [hget j, List.getElem?_eq_getElem hjp, List.getElem?_eq_getElem hju]
    rfl
  · intro hu
    exact restart_probe_short p u hs.probes hu

/-- C8 amended, on a probe with two components holding `[[1], [2]]`: the vector
`[7, 8, 9]` is accepted and its first two entries are appended, the vector `[7]` is read
outside its bounds. -/
theorem restart_probe_needs_value_size_entries_sample :
    Shaped sample_pair ∧
      sample_pair.restart_probe [7] = Except.error Fault.out_of_bounds ∧
      ∃ q, sample_pair.restart_probe [7, 8, 9] = Except.ok q ∧
        q._probes = [[1, 7], [2, 8]] := by
  have hs : Shaped sample_pair :=
    ⟨by decide, by decide, by decide, by decide, by decide, by decide⟩
  refine ⟨hs, (restart_probe_needs_value_size_entries sample_pair [7] hs).2 (by decide), ?_⟩
  obtain ⟨q, hq, _, _⟩ :=
    (restart_probe_needs_value_size_entries sample_pair [7, 8, 9] hs).1 (by decide)
  refine ⟨q, hq, ?_⟩
  have hq' : sample_pair.restart_probe [7, 8, 9]
      = Except.ok { sample_pair with _probes := [[1, 7], [2, 8]] } := rfl
  rw [hq', Except.ok.injEq] at hq
  rw [← hq]

/-- C9: `clear` returns a state with `_num_evals = 0` and every value series empty; a
second `clear` returns that same state; the weights, the coordinates, the gradient
series and `_num_grad_evals` are as before the call. -/
theorem clear_empties_and_is_idempotent (p : GradProbe α) (hs : Shaped p) :
    ∃ q, p.clear = Except.ok q ∧
      q.number_of_evaluations = 0 ∧
      q._probes.length = p._value_size_loc ∧ (∀ s ∈ q._probes, s = []) ∧
      q.clear = Except.ok q ∧
      q.basis_matrix = p.basis_matrix ∧ q.basis_grad_matrix = p.basis_grad_matrix ∧
      q.coordinates = p.coordinates ∧ q._probes_grad = p._probes_grad ∧
      q._num_grad_evals = p._num_grad_evals := by
  refine ⟨_, clear_result p hs.probes, rfl, ?_, ?_, ?_, rfl, rfl, rfl, rfl, rfl⟩
  · simp
  · intro s hmem
    exact (List.mem_replicate.mp hmem).2
  · exact clear_result _ (by simp)

/-- C9, on the sample probe after an `eval` and an `eval_grad`. -/
theorem clear_empties_and_is_idempotent_sample :
    run sample_probe [Call.eval [2, 4], Call.eval_grad [1, 1]] = Except.ok sample_mixed ∧
      Shaped sample_mixed ∧
      ∃ q, sample_mixed.clear = Except.ok q ∧ q.number_of_evaluations = 0 ∧
        q._probes = [[]] ∧ q.clear = Except.ok q ∧ q._probes_grad = [[0]] ∧
        q._num_grad_evals = 1 := by
  have hs : Shaped sample_mixed :=
    ⟨by decide, by decide, by decide, by decide, by decide, by decide⟩
  obtain ⟨q, hq, h1, _, _, h4, _, _, _, h8, h9⟩ :=
    clear_empties_and_is_idempotent sample_mixed hs
  refine ⟨rfl, hs, q, hq, h1, ?_, h4, h8, h9⟩
  have hq' : sample_mixed.clear
      = Except.ok { sample_mixed with _probes := [[]], _num_evals := 0 } := rfl
  rw [hq', Except.ok.injEq] at hq
  rw [← hq]

/-- C10: every public call that returns (`eval`, `eval_grad`, `erase_snapshot`, `clear`,
`clear_grad`, `restart_probe` and the retrievals) leaves `basis_matrix`,
`basis_grad_matrix`, the coordinates, the value size and the geometric dimension exactly
as they were before the call. -/
theorem calls_keep_weights [Zero α] [Add α] [Mul α] (p q : GradProbe α) (c : Call α)
    (h : step p c = Except.ok q) :
    q.basis_matrix = p.basis_matrix ∧ q.basis_grad_matrix = p.basis_grad_matrix ∧
      q.coordinates = p.coordinates ∧ q.value_size = p.value_size ∧
      q._geom_dim = p._geom_dim := by
  obtain ⟨f1, f2, _, f4, _, f6, f7, _⟩ := step_frame h
  exact ⟨f1, f2, f4, f6, f7⟩

/-- C10, on the sample probe: across an `eval_grad` the weights are still `[[1, 2]]` and
`[[-1, 1]]` and the coordinates still `[5, 0, 0]`. -/
theorem calls_keep_weights_sample :
    ∃ q, step sample_probe (Call.eval_grad [2, 4]) = Except.ok q ∧
      q._probes = [[10]] ∧ q._probes_grad = [[2]] ∧
      q.basis_matrix = [[1, 2]] ∧ q.basis_grad_matrix = [[-1, 1]] ∧
      q.coordinates = [5, 0, 0] ∧ q.value_size = 1 ∧ q._geom_dim = 1 := by
  have hstep : step sample_probe (Call.eval_grad [2, 4])
      = Except.ok
          { sample_probe with
            coefficients := [2, 4]
            _probes := [[10]]
            _probes_grad := [[2]]
            _num_evals := 1
            _num_grad_evals := 1 } := rfl
  obtain ⟨h1, h2, h3, h4, h5⟩ := calls_keep_weights _ _ _ hstep
  exact ⟨_, hstep, rfl, rfl, h1, h2, h3, h4, h5⟩

/-- C13: the coordinates of a probe returned by the constructor are a vector of length
`3` whose entry `i` is `x[i]` for `i < gdim` and zero for `gdim ≤ i < 3`, whatever the
geometric dimension `gdim` of the mesh, so in particular for `gdim ≤ 3`. -/
theorem coordinates_padded [Zero α] (x : List α) (V : FunctionSpace α) (p : GradProbe α)
    (h : construct x V = Except.ok p) :
    p.coordinates.length = 3 ∧
      ∀ i : Nat, i < 3 →
        (i < V.dim → ∃ xi, x[i]? = some xi ∧ p.coordinates[i]? = some xi) ∧
        (V.dim ≤ i → p.coordinates[i]? = some 0) := by
  have hx : V.dim ≤ x.length := by
    by_contra hlt
    rw [construct_short x V (by omega)] at h
    cases h
  have hcell : V.compute_first_entity_collision (x.take V.dim) ≠ UINT_MAX := by
    intro hc
    rw [construct_not_found x V hx hc] at h
    cases h
  obtain ⟨pos, _, _, hpos, _, _, h'⟩ := construct_found x V hx hcell
  obtain ⟨r, hr, hlen, hget⟩ := store_position_rows V.dim x hx
  rw [hpos, Except.ok.injEq] at hr
  subst hr
  rw [h', Except.ok.injEq] at h
  subst h
  refine ⟨hlen, ?_⟩
  intro i hi
  constructor
  · intro hig
    have hix : i < x.length := by omega
    refine ⟨x[i], List.getElem?_eq_getElem hix, ?_⟩
    show pos[i]? = _
    rw [hget i hi]
    simp [hig, List.getD_eq_getElem?_getD, List.getElem?_eq_getElem hix]
  · intro hig
    show pos[i]? = _
    rw [hget i hi]
    simp [Nat.not_lt.mpr hig]

/-- C13, on `plane_space` of dimension `2`: the point `(1, 2)` is stored as
`[1, 2, 0]`. -/
theorem coordinates_padded_plane :
    construct [1, 2] plane_space = Except.ok plane_probe ∧ plane_space.dim ≤ 3 ∧
      plane_probe.coordinates = [1, 2, 0] ∧ plane_probe.coordinates.length = 3 ∧
      plane_probe.coordinates[2]? = some 0 := by
  have h : construct [1, 2] plane_space = Except.ok plane_probe := rfl
  have hc := coordinates_padded [1, 2] plane_space plane_probe h
  exact ⟨h, by decide, rfl, hc.1, (hc.2 2 (by decide)).2 (by decide)⟩

/-- C15: on a probe whose value series all have `_num_evals` entries, for a snapshot
index `s < _num_evals` the call `get_probe_at_snapshot s` returns a vector of length
`value_size` whose entry `j` is the entry `s` of the series returned by
`get_probe_sub j`, and `get_probe_component_and_snapshot j s` returns that same
scalar. -/
theorem snapshot_agrees_with_series [Zero α] (p : GradProbe α) (s : Nat) (hs : Shaped p)
    (hv : ValuesCounted p) (hlt : s < p._num_evals) :
    ∃ snap, p.get_probe_at_snapshot s = Except.ok snap ∧ snap.length = p.value_size ∧
      ∀ j : Nat, j < p.value_size → ∃ series v,
        p.get_probe_sub j = Except.ok series ∧ series[s]? = some v ∧
        snap[j]? = some v ∧ p.get_probe_component_and_snapshot j s = Except.ok v := by
  have hrow : ∀ j : Nat, j < p._value_size_loc →
      ∃ x, p._probes[j]? = some x ∧ s < x.length := by
    intro j hj
    have hjp : j < p._probes.length := by rw [hs.probes]; exact hj
    refine ⟨p._probes[j], List.getElem?_eq_getElem hjp, ?_⟩
    rw [hv _ (List.getElem_mem hjp)]
    exact hlt
  obtain ⟨snap, hsnap, hlen, hget⟩ := column_entries p._value_size_loc s p._probes hrow
  refine ⟨snap, hsnap, hlen, ?_⟩
  intro j hj
  obtain ⟨x, hx, hsx⟩ := hrow j hj
  have hent : entry p._probes j s = x[s] := by
    simp [entry, List.getD_eq_getElem?_getD, hx, List.getElem?_eq_getElem hsx]
  refine ⟨x, x[s], vec_get_some hx, List.getElem?_eq_getElem hsx, ?_, ?_⟩
  · rw [hget j hj, hent]
  · unfold get_probe_component_and_snapshot
    simp only [vec_get_some hx]
    exact vec_get_some (List.getElem?_eq_getElem hsx)

/-- C15, on the sample probe after three evaluations: the snapshot `1` is `[3]`, the
entry `1` of the series `[10, 3, 6]`. -/
theorem snapshot_agrees_with_series_sample :
    Shaped sample_three ∧ ValuesCounted sample_three ∧ 1 < sample_three._num_evals ∧
      sample_three.get_probe_at_snapshot 1 = Except.ok [3] ∧
      sample_three.get_probe_sub 0 = Except.ok [10, 3, 6] ∧
      sample_three.get_probe_component_and_snapshot 0 1 = Except.ok 3 ∧
      ∃ snap, sample_three.get_probe_at_snapshot 1 = Except.ok snap ∧
        snap.length = sample_three.value_size := by
  have hs : Shaped sample_three :=
    ⟨by decide, by decide, by decide, by decide, by decide, by decide⟩
  have hv : ValuesCounted sample_three := by unfold ValuesCounted; decide
  obtain ⟨snap, h1, h2, _⟩ := snapshot_agrees_with_series sample_three 1 hs hv (by decide)
  exact ⟨hs, hv, by decide, rfl, rfl, rfl, snap, h1, h2⟩

/-- C16, refuted as stated: no retrieval raises an error.  On the sample probe, which
has one component, `get_probe_sub 1` reads past the table of series, which is an access
outside a vector and not the raised `dolfin_error`; and on the sample probe after
`restart_probe`, where `_num_evals` is `0`, the snapshot index `0` returns a value. -/
theorem retrieval_is_unchecked :
    sample_probe.value_size ≤ 1 ∧
      sample_probe.get_probe_sub 1 = Except.error Fault.out_of_bounds ∧
      sample_probe.get_probe_sub 1 ≠ Except.error Fault.dolfin_error ∧
      sample_probe.restart_probe [7] = Except.ok sample_restarted ∧
      sample_restarted.number_of_evaluations ≤ 0 ∧
      sample_restarted.get_probe_at_snapshot 0 = Except.ok [7] ∧
      sample_restarted.get_probe_component_and_snapshot 0 0 = Except.ok 7 := by
  refine ⟨by decide, rfl, ?_, rfl, by decide, rfl, rfl⟩
  intro h
  have h2 : (Except.error Fault.out_of_bounds : Except Fault (List Int))
      = Except.error Fault.dolfin_error := h
  simp at h2

/-- C16, amended: the retrievals make no range check and raise no error.  On a probe
whose series have their counted lengths, an index beyond the bounds (a component index
`≥ value_size`, a snapshot index `≥ _num_evals`, and for the gradients a component index
`≥ value_size * gdim` or a snapshot index `≥ _num_grad_evals`) makes the call read
outside a vector. -/
theorem retrieval_beyond_bounds [Zero α] (p : GradProbe α) (hs : Shaped p)
    (hv : ValuesCounted p) (hg : GradsCounted p) :
    (∀ c : Nat, p.value_size ≤ c →
        p.get_probe_sub c = Except.error Fault.out_of_bounds) ∧
      (∀ s : Nat, p._num_evals ≤ s → 0 < p.value_size →
        p.get_probe_at_snapshot s = Except.error Fault.out_of_bounds) ∧
      (∀ c s : Nat, p.value_size ≤ c ∨ p._num_evals ≤ s →
        p.get_probe_component_and_snapshot c s = Except.error Fault.out_of_bounds) ∧
      (∀ c : Nat, p.value_size * p._geom_dim ≤ c →
        p.get_probe_grad_sub c = Except.error Fault.out_of_bounds) ∧
      (∀ s : Nat, p._num_grad_evals ≤ s →
        0 < p.value_size * p._element.space_dimension →
        p.get_probe_grad_at_snapshot s = Except.error Fault.out_of_bounds) ∧
      (∀ c s : Nat, p.value_size * p._geom_dim ≤ c ∨ p._num_grad_evals ≤ s →
        p.get_probe_grad_component_and_snapshot c s
          = Except.error Fault.out_of_bounds) := by
  refine ⟨?_, ?_, ?_, ?_, ?_, ?_⟩
  · intro c hc
    exact vec_get_none (by rw [hs.probes]; exact hc)
  · intro s hsn hpos
    apply column_fails _ _ _ hpos
    intro x hx
    rw [hv x (List.mem_iff_getElem?.mpr ⟨0, hx⟩)]
    exact hsn
  · intro c s h
    exact component_read c s hs.probes hv h
  · intro c hc
    exact vec_get_none (by rw [hs.probes_grad]; exact hc)
  · intro s hsn hpos
    apply column_fails _ _ _ hpos
    intro x hx
    rw [hg x (List.mem_iff_getElem?.mpr ⟨0, hx⟩)]
    exact hsn
  · intro c s h
    exact component_read c s hs.probes_grad hg h

/-- C16 amended, on the sample probe after three evaluations and no gradient
evaluation. -/
theorem retrieval_beyond_bounds_sample :
    Shaped sample_three ∧ ValuesCounted sample_three ∧ GradsCounted sample_three ∧
      sample_three.get_probe_sub 1 = Except.error Fault.out_of_bounds ∧
      sample_three.get_probe_at_snapshot 3 = Except.error Fault.out_of_bounds ∧
      sample_three.get_probe_component_and_snapshot 0 3
        = Except.error Fault.out_of_bounds ∧
      sample_three.get_probe_grad_sub 1 = Except.error Fault.out_of_bounds ∧
      sample_three.get_probe_grad_at_snapshot 0 = Except.error Fault.out_of_bounds ∧
      sample_three.get_probe_grad_component_and_snapshot 0 0
        = Except.error Fault.out_of_bounds := by
  have hs : Shaped sample_three :=
    ⟨by decide, by decide, by decide, by decide, by decide, by decide⟩
  have hv : ValuesCounted sample_three := by unfold ValuesCounted; decide
  have hg : GradsCounted sample_three := by unfold GradsCounted; decide
  obtain ⟨h1, h2, h3, h4, h5, h6⟩ := retrieval_beyond_bounds sample_three hs hv hg
  exact ⟨hs, hv, hg, h1 1 (by decide), h2 3 (by decide) (by decide),
    h3 0 3 (Or.inr (by decide)), h4 1 (by decide), h5 0 (by decide) (by decide),
    h6 0 0 (Or.inr (by decide))⟩

/-- C17, refuted as stated: `erase_snapshot` makes no range check.  On the fresh sample
probe, where `_num_evals` is `0`, `erase_snapshot 0` erases at the end of an empty
vector, which is an access outside a vector and not the raised `dolfin_error`; and after
`restart_probe`, with `_num_evals` still `0`, `erase_snapshot 0` returns, the series is
emptied and `_num_evals` has wrapped to `SIZE_MAX`. -/
theorem erase_snapshot_is_unchecked :
    sample_probe._num_evals ≤ 0 ∧
      sample_probe.erase_snapshot 0 = Except.error Fault.out_of_bounds ∧
      sample_probe.erase_snapshot 0 ≠ Except.error Fault.dolfin_error ∧
      sample_restarted._num_evals ≤ 0 ∧
      ∃ q, sample_restarted.erase_snapshot 0 = Except.ok q ∧ q._probes = [[]] ∧
        q._probes ≠ sample_restarted._probes ∧ q._num_evals = SIZE_MAX := by
  refine ⟨by decide, rfl, ?_, by decide,
    { sample_restarted with _probes := [[]], _num_evals := SIZE_MAX }, rfl, rfl,
    by decide, rfl⟩
  intro h
  have h2 : (Except.error Fault.out_of_bounds : Except Fault (GradProbe Int))
      = Except.error Fault.dolfin_error := h
  simp at h2

/-- C17, amended: `erase_snapshot` makes no range check and raises no error.  On a
probe with at least one component whose value series all have `_num_evals` entries, an
index `k ≥ _num_evals` makes the call erase at or past the end of a series, an access
outside a vector. -/
theorem erase_snapshot_beyond_bounds (p : GradProbe α) (k : Nat) (hs : Shaped p)
    (hv : ValuesCounted p) (hpos : 0 < p.value_size) (hk : p._num_evals ≤ k) :
    p.erase_snapshot k = Except.error Fault.out_of_bounds := by
  have h0 : 0 < p._probes.length := by rw [hs.probes]; exact hpos
  have hlen : ¬ k < (p._probes[0]).length := by
    rw [hv _ (List.getElem_mem h0)]
    omega
  have hfail : forLoop p._value_size_loc
      (fun j t => vec_modify t j (fun s => vec_erase s k)) p._probes
      = Except.error Fault.out_of_bounds := by
    apply forLoop_fails_at _ _ p._probes Fault.out_of_bounds 0 _ rfl _ hpos
    simp [vec_modify, List.getElem?_eq_getElem h0, vec_erase, hlen]
  unfold erase_snapshot
  rw [hfail]

/-- C17 amended, on the sample probe after three evaluations: erasing the snapshot
`3`. -/
theorem erase_snapshot_beyond_bounds_sample :
    Shaped sample_three ∧ ValuesCounted sample_three ∧ 0 < sample_three.value_size ∧
      sample_three._num_evals ≤ 3 ∧
      sample_three.erase_snapshot 3 = Except.error Fault.out_of_bounds := by
  have hs : Shaped sample_three :=
    ⟨by decide, by decide, by decide, by decide, by decide, by decide⟩
  have hv : ValuesCounted sample_three := by unfold ValuesCounted; decide
  exact ⟨hs, hv, by decide, by decide,
    erase_snapshot_beyond_bounds sample_three 3 hs hv (by decide) (by decide)⟩

/-- C18: seeding then evaluating does not keep both entries.  On the fresh sample
probe, `restart_probe [7]` followed by `eval [2, 4]`, whose weighted sum is `10`, leaves
the series `[17, 0]`: the sum is added to the seeded entry at index `_num_evals = 0` and
the entry pushed by `eval` stays zero. -/
theorem restart_then_eval_adds_to_seed :
    construct [5] sample_space = Except.ok sample_probe ∧
      weighted_sum sample_probe._element.space_dimension [2, 4]
        sample_probe.basis_matrix 0 = 10 ∧
      ∃ q, run sample_probe [Call.restart_probe [7], Call.eval [2, 4]] = Except.ok q ∧
        q._probes = [[17, 0]] ∧ q._probes ≠ [[7, 10]] ∧ q._num_evals = 1 := by
  refine ⟨rfl, by decide,
    { sample_probe with coefficients := [2, 4], _probes := [[17, 0]], _num_evals := 1 },
    rfl, rfl, by decide, rfl⟩

/-- C19: `get_probe_grad_at_snapshot` does not return the gradient snapshot.  On the
sample probe (one component, one direction, two local dofs) after one `eval_grad`, the
single gradient series holds `[2]`, and the call loops over
`_value_size_loc * space_dimension = 2` series and reads the series `1`, which does not
exist. -/
theorem grad_snapshot_reads_past_series :
    run sample_probe [Call.eval_grad [2, 4]] = Except.ok sample_graded ∧
      sample_graded._probes_grad = [[2]] ∧
      sample_graded.value_size * sample_graded._geom_dim = 1 ∧
      sample_graded.value_size * sample_graded._element.space_dimension = 2 ∧
      0 < sample_graded._num_grad_evals ∧
      sample_graded.get_probe_grad_at_snapshot 0 = Except.error Fault.out_of_bounds ∧
      sample_graded.get_probe_grad_component_and_snapshot 0 0 = Except.ok 2 :=
  ⟨rfl, rfl, rfl, rfl, by decide, rfl, rfl⟩

/-- C20: for a vector `u` of at least `_value_size_loc` entries, `restart_probe u`
returns, appends `u[j]` to the value series `j` for every `j < _value_size_loc` and
changes nothing else: `number_of_evaluations`, the gradient series, `_num_grad_evals`
and the weights are as before the call. -/
theorem restart_probe_only_appends (p : GradProbe α) (u : List α) (hs : Shaped p)
    (hu : p._value_size_loc ≤ u.length) :
    ∃ q, p.restart_probe u = Except.ok q ∧
      q._probes.length = p._value_size_loc ∧
      (∀ j : Nat, j < p._value_size_loc → ∃ s uj, p._probes[j]? = some s ∧
        u[j]? = some uj ∧ q._probes[j]? = some (s ++ [uj])) ∧
      q = { p with _probes := q._probes } ∧
      q.number_of_evaluations = p.number_of_evaluations ∧
      q._probes_grad = p._probes_grad ∧ q._num_grad_evals = p._num_grad_evals ∧
      q.basis_matrix = p.basis_matrix ∧ q.basis_grad_matrix = p.basis_grad_matrix := by
  obtain ⟨t, h, hlen, hget⟩ := restart_probe_result p u hs.probes hu
  refine ⟨_, h, hlen, ?_, rfl, rfl, rfl, rfl, rfl, rfl⟩
  intro j hj
  have hjp : j < p._probes.length := by rw [hs.probes]; exact hj
  have hju : j < u.length := Nat.lt_of_lt_of_le hj hu
  refine ⟨p._probes[j], u[j], List.getElem?_eq_getElem hjp, List.getElem?_eq_getElem hju,
    ?_⟩
  show t[j]? = _
  rw [hget j, List.getElem?_eq_getElem hjp, List.getElem?_eq_getElem hju]
  rfl

/-- C20, on the sample probe after an `eval` and an `eval_grad`: `restart_probe [7]`
makes the series `[10, 3, 7]` and leaves `number_of_evaluations` at `2`. -/
theorem restart_probe_only_appends_sample :
    Shaped sample_mixed ∧ sample_mixed._value_size_loc ≤ ([7] : List Int).length ∧
      ∃ q, sample_mixed.restart_probe [7] = Except.ok q ∧ q._probes = [[10, 3, 7]] ∧
        q.number_of_evaluations = 2 ∧ q._probes_grad = [[0]] ∧
        q._num_grad_evals = 1 := by
  have hs : Shaped sample_mixed :=
    ⟨by decide, by decide, by decide, by decide, by decide, by decide⟩
  obtain ⟨q, hq, _, _, _, h4, h5, h6, _, _⟩ :=
    restart_probe_only_appends sample_mixed [7] hs (by decide)
  refine ⟨hs, by decide, q, hq, ?_, h4, h5, h6⟩
  have hq' : sample_mixed.restart_probe [7]
      = Except.ok { sample_mixed with _probes := [[10, 3, 7]] } := rfl
  rw [hq', Except.ok.injEq] at hq
  rw [← hq]

end GradProbe

end dolfin
